import Mathlib

/-!
Verification of the Production Weekly Extractor core
(src/Scripts/Production_Weekly_Extractor.py) against its design spec.

The Python source is shallowly embedded: strings are Lean `String`s
(operated on through their `List Char` data), Python `dict` rows are
association lists, `datetime.date` is a validated year/month/day triple,
and the few regular expressions of the source are hand-compiled into
deterministic matchers that implement the same (leftmost, greedy with
backtracking) semantics for those concrete patterns.  External libraries
(rapidfuzz similarity scores, the geonamescache city table, unicodedata)
are modelled as explicit parameters.
-/

namespace PW

abbrev Chars := List Char

/-- Python `str` whitespace for `strip`/`split` (ASCII subset; the inputs
handled by this program are ASCII at the points where this matters). -/
def isPySpace (c : Char) : Bool :=
  c = ' ' || c = '\t' || c = '\n' || c = '\r' || c = '\x0b' || c = '\x0c'

def dropLeadingWs : Chars → Chars
  | [] => []
  | c :: cs => if isPySpace c then dropLeadingWs cs else c :: cs

/-- Python `str.strip()` on the character list. -/
def pyStripL (cs : Chars) : Chars :=
  (dropLeadingWs (dropLeadingWs cs).reverse).reverse

def pyStrip (s : String) : String := ⟨pyStripL s.data⟩

/-- Python `str.strip(chars)`: strip any of the given characters from both ends. -/
def dropLeadingIn (bad : Chars) : Chars → Chars
  | [] => []
  | c :: cs => if bad.contains c then dropLeadingIn bad cs else c :: cs

def pyStripCharsL (bad : Chars) (cs : Chars) : Chars :=
  (dropLeadingIn bad (dropLeadingIn bad cs).reverse).reverse

/-- Python `str.lower()` (ASCII-wise model). -/
def pyLower (s : String) : String := ⟨s.data.map Char.toLower⟩

/-- Python `str.upper()` (ASCII-wise model). -/
def pyUpper (s : String) : String := ⟨s.data.map Char.toUpper⟩

/-- `needle` is a prefix of `hay` (Python `str.startswith`). -/
def startsWithL : Chars → Chars → Bool
  | [], _ => true
  | _ :: _, [] => false
  | n :: ns, h :: hs => n = h && startsWithL ns hs

def strStarts (needle hay : String) : Bool := startsWithL needle.data hay.data

/-- Python `needle in hay` substring test. -/
def containsSub : Chars → Chars → Bool
  | _, [] => false
  | n, h :: hs => startsWithL n (h :: hs) || containsSub n hs

def strContains (hay needle : String) : Bool :=
  startsWithL needle.data hay.data || containsSub needle.data hay.data

/-- Python `str.find(sub)`: index of the first occurrence, `-1`→`none` here. -/
def findSubL (n : Chars) : Chars → Option Nat
  | [] => if n.isEmpty then some 0 else none
  | h :: hs =>
    if startsWithL n (h :: hs) then some 0
    else (findSubL n hs).map (· + 1)

/-- Python `s.split(sep, 1)[1]` for a one-character separator: everything
after the first occurrence (`none` when the separator is absent). -/
def afterFirst (sep : Char) : Chars → Option Chars
  | [] => none
  | c :: cs => if c = sep then some cs else afterFirst sep cs

/-- Python `str.split(sep)` for a one-character separator. -/
def splitOnChar (sep : Char) : Chars → List Chars
  | [] => [[]]
  | c :: cs =>
    let rest := splitOnChar sep cs
    if c = sep then [] :: rest
    else match rest with
      | [] => [[c]]
      | w :: ws => (c :: w) :: ws

/-- Python `str.split()` (no argument): words separated by whitespace runs. -/
def pyWordsGo : Chars → Chars → List Chars
  | [], cur => if cur.isEmpty then [] else [cur]
  | c :: cs, cur =>
    if isPySpace c then
      (if cur.isEmpty then pyWordsGo cs [] else cur :: pyWordsGo cs [])
    else pyWordsGo cs (cur ++ [c])

def pyWords (cs : Chars) : List Chars := pyWordsGo cs []

/-- `" ".join(words)`. -/
def joinWords : List Chars → Chars
  | [] => []
  | [w] => w
  | w :: ws => w ++ ' ' :: joinWords ws

/-- Python `sep.join(strings)` on full strings. -/
def joinWithSep (sep : String) : List String → String
  | [] => ""
  | [w] => w
  | w :: ws => w ++ sep ++ joinWithSep sep ws

def isDigitChar (c : Char) : Bool := '0' ≤ c && c ≤ '9'

def isAlphaChar (c : Char) : Bool := ('a' ≤ c && c ≤ 'z') || ('A' ≤ c && c ≤ 'Z')

def isLowerAlnum (c : Char) : Bool := ('a' ≤ c && c ≤ 'z') || ('0' ≤ c && c ≤ '9')

/-- Digits-to-`Nat` (`int(...)` on a string of decimal digits). -/
def digitsToNat (cs : Chars) : Nat :=
  cs.foldl (fun a c => a * 10 + (c.toNat - '0'.toNat)) 0

/-! ### `datetime.date` model -/

structure PyDate where
  year : Nat
  month : Nat
  day : Nat
deriving DecidableEq, Repr

/-- `date` comparison (`<`) is lexicographic on (year, month, day). -/
def PyDate.ltB (a b : PyDate) : Bool :=
  a.year < b.year ||
    (a.year = b.year && (a.month < b.month ||
      (a.month = b.month && a.day < b.day)))

def isLeapYear (y : Nat) : Bool := (y % 4 = 0 && y % 100 ≠ 0) || y % 400 = 0

def daysInMonth (y m : Nat) : Nat :=
  if m = 2 then (if isLeapYear y then 29 else 28)
  else if m = 4 || m = 6 || m = 9 || m = 11 then 30
  else 31

/-- `datetime.date(y, m, d)`: `none` models the `ValueError` raised on an
out-of-range component (always caught by the source's `except` blocks). -/
def mkDate (y m d : Nat) : Option PyDate :=
  if 1 ≤ y && y ≤ 9999 && 1 ≤ m && m ≤ 12 && 1 ≤ d && d ≤ daysInMonth y m
  then some ⟨y, m, d⟩ else none

/-! ### Regex building blocks

The source uses a handful of fixed regular expressions; each is compiled by
hand into a deterministic matcher with Python's leftmost search and
greedy-with-backtracking quantifier semantics. -/

/-- Try the split points of a greedy one-or-more character-class run, longest
first: at step `n` the continuation gets the first `n` characters of `run`
and the rest back.  `n = 0` fails (the quantifier is `+`). -/
def tryLens (run rest : Chars) (k : Chars → Chars → Option α) : Nat → Option α
  | 0 => none
  | n + 1 =>
    match k (run.take (n + 1)) (run.drop (n + 1) ++ rest) with
    | some r => some r
    | none => tryLens run rest k n

/-- Same for a zero-or-more (`*`) run: the empty split is also tried. -/
def tryLensZ (run rest : Chars) (k : Chars → Chars → Option α) : Nat → Option α
  | 0 => k [] (run ++ rest)
  | n + 1 =>
    match k (run.take (n + 1)) (run.drop (n + 1) ++ rest) with
    | some r => some r
    | none => tryLensZ run rest k n

/-- Exactly `n` digits (`\d{n}` with a fixed count). -/
def takeExactDigits : Nat → Chars → Option (Chars × Chars)
  | 0, r => some ([], r)
  | _ + 1, [] => none
  | n + 1, c :: r =>
    if isDigitChar c then
      (takeExactDigits n r).map (fun p => (c :: p.1, p.2))
    else none

/-! ### `RE_DATE_RANGE`

`([A-Za-z]+)\s+(\d{1,2})(?:,\s*(\d{4}))?\s*[-–]\s*([A-Za-z]+)\s+(\d{1,2}),\s*(\d{4})`
(6 groups; the year on the first date is optional). -/

structure DRGroups where
  m1 : Chars
  d1 : Chars
  y1 : Option Chars
  m2 : Chars
  d2 : Chars
  y2 : Chars
deriving DecidableEq, Repr

/-- The tail `\s*[-–]\s*([A-Za-z]+)\s+(\d{1,2}),\s*(\d{4})` of `RE_DATE_RANGE`. -/
def matchDRTail (m1 d1 : Chars) (y1 : Option Chars) (r : Chars) :
    Option (DRGroups × Chars) :=
  let (w, r1) := r.span isPySpace
  tryLensZ w r1 (fun _ r1 =>
    match r1 with
    | c :: r2 =>
      if c = '-' || c = '–' then
        let (w2, r3) := r2.span isPySpace
        tryLensZ w2 r3 (fun _ r3 =>
          let (a2, r4) := r3.span isAlphaChar
          tryLens a2 r4 (fun m2 r4 =>
            let (w3, r5) := r4.span isPySpace
            tryLens w3 r5 (fun _ r5 =>
              let (dg2, r6) := r5.span isDigitChar
              tryLens dg2 r6 (fun d2 r6 =>
                match r6 with
                | ',' :: r7 =>
                  let (w4, r8) := r7.span isPySpace
                  tryLensZ w4 r8 (fun _ r8 =>
                    match takeExactDigits 4 r8 with
                    | some (y2, r9) => some (⟨m1, d1, y1, m2, d2, y2⟩, r9)
                    | none => none) w4.length
                | _ => none) (min 2 dg2.length)) w3.length) a2.length) w2.length
      else none
    | [] => none) w.length

/-- Match `RE_DATE_RANGE` anchored at the head of `cs`. -/
def matchDR (cs : Chars) : Option (DRGroups × Chars) :=
  let (a1, r1) := cs.span isAlphaChar
  tryLens a1 r1 (fun m1 r1 =>
    let (w1, r2) := r1.span isPySpace
    tryLens w1 r2 (fun _ r2 =>
      let (dg1, r3) := r2.span isDigitChar
      tryLens dg1 r3 (fun d1 r3 =>
        -- optional `(?:,\s*(\d{4}))?`, greedy: try with the group first
        let withYear :=
          match r3 with
          | ',' :: r4 =>
            let (w2, r5) := r4.span isPySpace
            tryLensZ w2 r5 (fun _ r5 =>
              match takeExactDigits 4 r5 with
              | some (y1, r6) => matchDRTail m1 d1 (some y1) r6
              | none => none) w2.length
          | _ => none
        match withYear with
        | some res => some res
        | none => matchDRTail m1 d1 none r3)
        (min 2 dg1.length)) w1.length) a1.length

/-- `RE_DATE_RANGE.search`: leftmost match; returns the start index, the
groups and the remaining input after the match. -/
def searchDR : Chars → Option (Nat × DRGroups × Chars)
  | [] => none
  | c :: cs =>
    match matchDR (c :: cs) with
    | some (g, rest) => some (0, g, rest)
    | none => (searchDR cs).map (fun p => (p.1 + 1, p.2.1, p.2.2))

/-! ### Month tables -/

/-- `MONTHS` (line 1222): lowercase full month name → 1..12. -/
def MONTHS : List (String × Nat) :=
  [("january", 1), ("february", 2), ("march", 3), ("april", 4), ("may", 5),
   ("june", 6), ("july", 7), ("august", 8), ("september", 9), ("october", 10),
   ("november", 11), ("december", 12)]

def monthsLookup (s : String) : Option Nat :=
  (MONTHS.find? (fun p => p.1 == s)).map (·.2)

/-- `_MONTHS` (line 42): the 13-entry table indexed from 0 with a leading
empty name, in dict insertion order. -/
def UMONTHS : List (String × Nat) :=
  ("", 0) :: MONTHS

/-- `date.strftime("%B")`. -/
def monthName (m : Nat) : String :=
  ((MONTHS.find? (fun p => p.2 == m)).map (fun p => ⟨(p.1.data.take 1).map Char.toUpper ++ p.1.data.drop 1⟩)).getD ""

/-! ### `_parse_date_range` (line 1735) -/

def drSpanText (g : DRGroups) (d1 d2 edYear : Nat) : String :=
  (⟨g.m1⟩ : String) ++ " " ++ toString d1 ++ " – " ++ (⟨g.m2⟩ : String) ++ " " ++
    toString d2 ++ ", " ++ toString edYear

/-- `_parse_date_range(block_text)`: span text, start date, end date.  An end
date earlier than the start moves the start to the previous year; any
exception inside the `try` falls back to `(m.group(0), None, None)`. -/
def parseDateRange (blockText : String) : String × Option PyDate × Option PyDate :=
  match searchDR blockText.data with
  | none => ("", none, none)
  | some (i, g, rest) =>
    let d1 := digitsToNat g.d1
    let d2 := digitsToNat g.d2
    let y2 := digitsToNat g.y2
    let startYear := match g.y1 with | some y => digitsToNat y | none => y2
    let group0 : String :=
      ⟨(blockText.data.drop i).take (blockText.data.length - i - rest.length)⟩
    match monthsLookup (pyLower ⟨g.m1⟩), monthsLookup (pyLower ⟨g.m2⟩) with
    | some mo1, some mo2 =>
      (match mkDate startYear mo1 d1, mkDate y2 mo2 d2 with
       | some sd, some ed =>
         if ed.ltB sd then
           match mkDate (y2 - 1) mo1 d1 with
           | some sd2 => (drSpanText g d1 d2 ed.year, some sd2, some ed)
           | none => (group0, none, none)
         else (drSpanText g d1 d2 ed.year, some sd, some ed)
       | _, _ => (group0, none, none))
    | _, _ => (group0, none, none)

/-! ### `_parse_span_flexible` (line 46) -/

structure SFGroups where
  m1 : Chars
  d1 : Chars
  m2 : Chars
  d2 : Chars
  y : Chars
deriving DecidableEq, Repr

/-- Match `([A-Za-z]+)\s+(\d{1,2})\s*-\s*([A-Za-z]+)\s+(\d{1,2})\s+(\d{4})`
anchored at the head of `cs` (dashes already normalised, commas removed). -/
def matchSF (cs : Chars) : Option SFGroups :=
  tryLens (cs.takeWhile isAlphaChar) (cs.dropWhile isAlphaChar) (fun m1 r1 =>
    tryLens (r1.takeWhile isPySpace) (r1.dropWhile isPySpace) (fun _ r2 =>
      tryLens (r2.takeWhile isDigitChar) (r2.dropWhile isDigitChar) (fun d1 r3 =>
        tryLensZ (r3.takeWhile isPySpace) (r3.dropWhile isPySpace) (fun _ r4 =>
          match r4 with
          | '-' :: r5 =>
            tryLensZ (r5.takeWhile isPySpace) (r5.dropWhile isPySpace) (fun _ r6 =>
              tryLens (r6.takeWhile isAlphaChar) (r6.dropWhile isAlphaChar)
                (fun m2 r7 =>
                tryLens (r7.takeWhile isPySpace) (r7.dropWhile isPySpace)
                  (fun _ r8 =>
                  tryLens (r8.takeWhile isDigitChar) (r8.dropWhile isDigitChar)
                    (fun d2 r9 =>
                    tryLens (r9.takeWhile isPySpace) (r9.dropWhile isPySpace)
                      (fun _ r10 =>
                      match takeExactDigits 4 r10 with
                      | some (y, _) => some ⟨m1, d1, m2, d2, y⟩
                      | none => none) (r9.takeWhile isPySpace).length)
                    (min 2 (r8.takeWhile isDigitChar).length))
                  (r7.takeWhile isPySpace).length)
                (r6.takeWhile isAlphaChar).length)
              (r5.takeWhile isPySpace).length
          | _ => none) (r3.takeWhile isPySpace).length)
        (min 2 (r2.takeWhile isDigitChar).length))
      (r1.takeWhile isPySpace).length) (cs.takeWhile isAlphaChar).length

def searchSF : Chars → Option SFGroups
  | [] => none
  | c :: cs =>
    match matchSF (c :: cs) with
    | some g => some g
    | none => searchSF cs

/-- `mnum` inside `_parse_span_flexible`: first entry of `_MONTHS` whose name
starts with the lowercased 3-character prefix of the token. -/
def mnum (tok : Chars) : Option Nat :=
  let t := (tok.map Char.toLower).take 3
  (UMONTHS.find? (fun p => startsWithL t p.1.data)).map (·.2)

/-- Normalise the dash variants, as the source's `.replace` chain does. -/
def dashFix (c : Char) : Char := if c = '—' || c = '–' then '-' else c

/-- `_parse_span_flexible(s) -> (start_date, end_date) | None`.

Note the source bug on the year-wrap path: when `end < start` the code
executes `start = dt.date(year - 1, a, d1)` but no variable `year` is in
scope (the parsed year is `y`), so a `NameError` is raised and swallowed by
the enclosing `except Exception`, returning `None`. -/
def parseSpanFlexible (s : String) : Option (PyDate × PyDate) :=
  if s.data.isEmpty then none
  else
    let t := ((pyStripL s.data).map dashFix).filter (fun c => c ≠ ',')
    match searchSF t with
    | none => none
    | some g =>
      let d1 := digitsToNat g.d1
      let d2 := digitsToNat g.d2
      let y := digitsToNat g.y
      match mnum g.m1, mnum g.m2 with
      | some a, some b =>
        (match mkDate y b d2 with
         | none => none
         | some e =>
           match mkDate y a d1 with
           | none => none
           | some st =>
             if e.ltB st then none  -- NameError on the undefined `year`
             else some (st, e))
      | _, _ => none  -- month token unmatched: `dt.date(y, None, d)` raises

/-- `_start_month_from_span` (line 106). -/
def startMonthFromSpan (s : String) : String :=
  match parseSpanFlexible s with
  | some (st, _) => monthName st.month
  | none => pyStrip s

/-! ### Rows (Python dicts with string keys and values) -/

abbrev Row := List (String × String)

/-- `row.get(k, "")`. -/
def Row.get (r : Row) (k : String) : String :=
  ((r.find? (fun p => p.1 == k)).map (·.2)).getD ""

/-- `row[k] = v`: replace in place, or append a new binding. -/
def Row.set : Row → String → String → Row
  | [], k, v => [(k, v)]
  | (k', v') :: rest, k, v =>
    if k' == k then (k, v) :: rest else (k', v') :: Row.set rest k v

/-- `SCHEMA` (line 391). -/
def SCHEMA : List String :=
  ["Production Name", "Format Label", "Start Month", "Shooting Dates",
   "Actively in Production", "If It Was Pushed", "Computed Production Length",
   "Description", "City", "Province/State", "Country", "Type",
   "Director/Producer", "VFX Team", "Studio Info", "Production Office",
   "Production Phone", "Production Email", "Production Company", "Notes",
   "Category", "All Locations"]

/-- `fill_na` (line 1685) with the default schema and `na="N/A"`. -/
def fillNa (row : Row) : Row :=
  SCHEMA.foldl
    (fun out k => if pyStrip (out.get k) == "" then out.set k "N/A" else out)
    row

/-! ### Comparison text helpers (lines 447-108) -/

def NA_TOKENS : List String := ["", "n/a", "na", "none", "-", "—"]

/-- Collapse whitespace runs to single spaces (`re.sub(r"\s+", " ", ·)`). -/
def collapseWs : Chars → Bool → Chars
  | [], _ => []
  | c :: cs, inRun =>
    if isPySpace c then
      (if inRun then collapseWs cs true else ' ' :: collapseWs cs true)
    else c :: collapseWs cs false

/-- `_norm_text` (line 449). -/
def normText (s : String) : String :=
  ⟨collapseWs ((pyStripL s.data).map Char.toLower) false⟩

/-- `_equiv` (line 453): blanks and NA placeholders are equivalent. -/
def equiv (a b : String) : Bool :=
  let sa := normText a
  let sb := normText b
  (NA_TOKENS.contains sa && NA_TOKENS.contains sb) || sa == sb

/-- `_equiv_dates` (line 81). -/
def equivDates (a b : String) : Bool :=
  match parseSpanFlexible a, parseSpanFlexible b with
  | some pa, some pb => pa == pb
  | _, _ => equiv a b

def TYPE_ALIASES : List (String × String) :=
  [("television", "series"), ("tv series", "series"), ("tv", "series"),
   ("feature", "feature film"), ("film", "feature film"),
   ("feature film", "feature film"), ("series", "series")]

/-- `_norm_type` (line 93). -/
def normType (s : String) : String :=
  let t := pyLower (pyStrip s)
  ((TYPE_ALIASES.find? (fun p => p.1 == t)).map (·.2)).getD t

/-- `_norm_phone_for_compare` (line 96): last 10 digits. -/
def normPhoneForCompare (s : String) : String :=
  let ds := s.data.filter isDigitChar
  ⟨ds.drop (ds.length - 10)⟩

/-- Character classes of `RE_EMAIL` = `[A-Z0-9._%+-]+@[A-Z0-9.-]+\.[A-Z]{2,}` (re.I). -/
def emailLocalChar (c : Char) : Bool :=
  isAlphaChar c || isDigitChar c || c = '.' || c = '_' || c = '%' || c = '+' || c = '-'

def emailDomChar (c : Char) : Bool :=
  isAlphaChar c || isDigitChar c || c = '.' || c = '-'

/-- Match `RE_EMAIL` anchored at the head; returns the matched text. -/
def matchEmail (cs : Chars) : Option Chars :=
  let (l, r1) := cs.span emailLocalChar
  tryLens l r1 (fun lo r1 =>
    match r1 with
    | '@' :: r2 =>
      let (d, r3) := r2.span emailDomChar
      tryLens d r3 (fun dm r3 =>
        match r3 with
        | '.' :: r4 =>
          let (t, _) := r4.span isAlphaChar
          if 2 ≤ t.length then some (lo ++ '@' :: dm ++ '.' :: t) else none
        | _ => none) d.length
    | _ => none) l.length

def searchEmail : Chars → Option Chars
  | [] => none
  | c :: cs =>
    match matchEmail (c :: cs) with
    | some m => some m
    | none => searchEmail cs

/-- `_norm_email_for_compare` (line 100). -/
def normEmailForCompare (s : String) : String :=
  match searchEmail s.data with
  | some m => ⟨m.map Char.toLower⟩
  | none => ""

/-! ### `_norm_key` (line 461)

`unicodedata.normalize("NFKD", ·)`, `unicodedata.combining` and the full
Unicode `str.lower()` are external library functions; they enter the
embedding as an explicit environment. -/

structure UEnv where
  nfkd : Chars → Chars
  combining : Char → Bool
  lowerMap : Char → Chars

/-- Case-insensitive equality against a lowercase reference character. -/
def ciIs (c t : Char) : Bool := c.toLower = t

/-- Alternative `aka` of the alias label. -/
def matchAKA : Chars → Option Chars
  | a1 :: k1 :: a2 :: rest =>
    if ciIs a1 'a' && ciIs k1 'k' && ciIs a2 'a' then some rest else none
  | _ => none

/-- Alternative `a\.k\.a\.`. -/
def matchAKAD : Chars → Option Chars
  | a1 :: p1 :: k1 :: p2 :: a2 :: p3 :: rest =>
    if ciIs a1 'a' && p1 = '.' && ciIs k1 'k' && p2 = '.' && ciIs a2 'a' && p3 = '.'
    then some rest else none
  | _ => none

/-- The optional `[-./]` separator inside the `w/t` alternative: consume it
when present (skipping it cannot lead to a match, since the following atoms
accept none of `.`, `/`, `-`). -/
def wtSep : Chars → Chars
  | d :: r => if d = '.' || d = '/' || d = '-' then r else d :: r
  | [] => []

/-- Alternative `w[-./]?\s*t`; the `\s*` is a maximal munch (the following
literal `t` is not whitespace). -/
def matchWT : Chars → Option Chars
  | [] => none
  | c :: rest =>
    if ciIs c 'w' then
      match (wtSep rest).dropWhile isPySpace with
      | t :: r4 => if ciIs t 't' then some r4 else none
      | [] => none
    else none

/-- `(?:aka|a\.k\.a\.|w[-./]?\s*t)`: ordered alternation.  The three branches
are pairwise prefix-incompatible, so no cross-alternative backtracking can
change the outcome. -/
def matchAkaLabel (cs : Chars) : Option Chars :=
  (matchAKA cs).orElse (fun _ => (matchAKAD cs).orElse (fun _ => matchWT cs))

/-- The optional `[:\-]` after the label: consume it when present. -/
def akaColon : Chars → Chars
  | c :: r => if c = ':' || c = '-' then r else c :: r
  | [] => []

/-- `\s*[:\-]?\s*[^)]*\)`: every backtracking path through these permissive
atoms ends at the first `)` (all of them only consume non-`)` characters),
so the match is computed deterministically. -/
def matchAkaAfter (cs : Chars) : Option Chars :=
  match (akaColon (cs.dropWhile isPySpace)).dropWhile (fun c => c ≠ ')') with
  | c :: r4 => if c = ')' then some r4 else none
  | [] => none

/-- One attempt of the full alias pattern anchored at the head of `cs`;
returns the input remaining after the match. -/
def matchAkaAt (cs : Chars) : Option Chars :=
  match cs.dropWhile isPySpace with
  | c :: r2 =>
    if c = '(' then
      match matchAkaLabel r2 with
      | some r3 => matchAkaAfter r3
      | none => none
    else none
  | [] => none

theorem length_dropWhile_le (p : Char → Bool) (l : Chars) :
    (l.dropWhile p).length ≤ l.length :=
  (List.dropWhile_sublist p).length_le

theorem matchAKA_length {cs r : Chars} (h : matchAKA cs = some r) :
    r.length ≤ cs.length := by
  match cs with
  | [] => rw [show matchAKA [] = none from rfl] at h; cases h
  | [a] => rw [show matchAKA [a] = none from rfl] at h; cases h
  | [a, b] => rw [show matchAKA [a, b] = none from rfl] at h; cases h
  | a :: b :: c :: rest =>
    rw [show matchAKA (a :: b :: c :: rest) =
        (if ciIs a 'a' && ciIs b 'k' && ciIs c 'a' then some rest else none)
      from rfl] at h
    split at h
    · cases h; simp only [List.length_cons]; omega
    · cases h

theorem matchAKAD_length {cs r : Chars} (h : matchAKAD cs = some r) :
    r.length ≤ cs.length := by
  match cs with
  | [] => rw [show matchAKAD [] = none from rfl] at h; cases h
  | [a] => rw [show matchAKAD [a] = none from rfl] at h; cases h
  | [a, b] => rw [show matchAKAD [a, b] = none from rfl] at h; cases h
  | [a, b, c] => rw [show matchAKAD [a, b, c] = none from rfl] at h; cases h
  | [a, b, c, d] => rw [show matchAKAD [a, b, c, d] = none from rfl] at h; cases h
  | [a, b, c, d, e] =>
    rw [show matchAKAD [a, b, c, d, e] = none from rfl] at h; cases h
  | a :: b :: c :: d :: e :: f :: rest =>
    rw [show matchAKAD (a :: b :: c :: d :: e :: f :: rest) =
        (if ciIs a 'a' && b = '.' && ciIs c 'k' && d = '.' && ciIs e 'a' && f = '.'
         then some rest else none) from rfl] at h
    split at h
    · cases h; simp only [List.length_cons]; omega
    · cases h

theorem wtSep_length (l : Chars) : (wtSep l).length ≤ l.length := by
  match l with
  | [] => simp [wtSep]
  | d :: r => rw [wtSep]; split <;> simp

theorem matchWT_length {cs r : Chars} (h : matchWT cs = some r) :
    r.length ≤ cs.length := by
  match cs with
  | [] => rw [show matchWT [] = none from rfl] at h; cases h
  | c :: rest =>
    rw [show matchWT (c :: rest) =
        (if ciIs c 'w' then
          match (wtSep rest).dropWhile isPySpace with
          | t :: r4 => if ciIs t 't' then some r4 else none
          | [] => none
        else none) from rfl] at h
    split at h
    · have h1 := wtSep_length rest
      have h2 := length_dropWhile_le isPySpace (wtSep rest)
      rcases hdp : (wtSep rest).dropWhile isPySpace with _ | ⟨t, r4⟩ <;>
        rw [hdp] at h
      · cases h
      · rw [hdp] at h2
        dsimp only at h
        split at h
        · cases h
          simp only [List.length_cons] at h2 ⊢
          omega
        · cases h
    · cases h

theorem matchAkaLabel_length {cs r : Chars} (h : matchAkaLabel cs = some r) :
    r.length ≤ cs.length := by
  unfold matchAkaLabel at h
  rcases h1 : matchAKA cs with _ | r1 <;> rw [h1] at h
  · rcases h2 : matchAKAD cs with _ | r2 <;> rw [h2] at h
    · simp only [Option.orElse] at h
      exact matchWT_length h
    · simp only [Option.orElse, Option.some.injEq] at h
      subst h
      exact matchAKAD_length h2
  · simp only [Option.orElse, Option.some.injEq] at h
    subst h
    exact matchAKA_length h1

theorem akaColon_length (l : Chars) : (akaColon l).length ≤ l.length := by
  match l with
  | [] => simp [akaColon]
  | c :: r => rw [akaColon]; split <;> simp

theorem matchAkaAfter_length {cs r : Chars} (h : matchAkaAfter cs = some r) :
    r.length ≤ cs.length := by
  unfold matchAkaAfter at h
  have h1 : (cs.dropWhile isPySpace).length ≤ cs.length :=
    length_dropWhile_le _ _
  have h2 := akaColon_length (cs.dropWhile isPySpace)
  have h3 := length_dropWhile_le (fun c => c ≠ ')')
    (akaColon (cs.dropWhile isPySpace))
  rcases hdp : (akaColon (cs.dropWhile isPySpace)).dropWhile (fun c => c ≠ ')')
      with _ | ⟨c, r4⟩ <;> rw [hdp] at h
  · cases h
  · rw [hdp] at h3
    dsimp only at h
    split at h
    · cases h
      simp only [List.length_cons] at h3
      omega
    · cases h

theorem matchAkaAt_length {cs r : Chars} (h : matchAkaAt cs = some r) :
    r.length < cs.length := by
  unfold matchAkaAt at h
  have h1 : (cs.dropWhile isPySpace).length ≤ cs.length :=
    length_dropWhile_le _ _
  rcases hdp : cs.dropWhile isPySpace with _ | ⟨c, r2⟩ <;> rw [hdp] at h
  · cases h
  · rw [hdp] at h1
    simp only [List.length_cons] at h1
    dsimp only at h
    split at h
    · rcases h2 : matchAkaLabel r2 with _ | r3 <;> rw [h2] at h
      · cases h
      · have l2 := matchAkaLabel_length h2
        have l3 := matchAkaAfter_length h
        omega
    · cases h

/-- `re.sub` of the alias pattern with the empty string: leftmost,
non-overlapping, continuing after each match.  Structural recursion on a
fuel argument keeps the function kernel-reducible; every step consumes at
least one character (`matchAkaAt_length`), so any fuel of at least the
input length computes the fixpoint (`stripAkaGo_fuel` below). -/
def stripAkaGo : Nat → Chars → Chars
  | 0, cs => cs
  | _ + 1, [] => []
  | fuel + 1, c :: rest =>
    match matchAkaAt (c :: rest) with
    | some r => stripAkaGo fuel r
    | none => c :: stripAkaGo fuel rest

/-- The fuel of `stripAkaGo` is irrelevant from the input length up. -/
theorem stripAkaGo_fuel (n : Nat) :
    ∀ (cs : Chars) (f1 f2 : Nat), cs.length ≤ n →
      cs.length ≤ f1 → cs.length ≤ f2 →
      stripAkaGo f1 cs = stripAkaGo f2 cs := by
  induction n with
  | zero =>
    intro cs f1 f2 hn _ _
    have : cs = [] := List.length_eq_zero.mp (Nat.le_zero.mp hn)
    subst this
    match f1, f2 with
    | 0, 0 => rfl
    | 0, _ + 1 => rfl
    | _ + 1, 0 => rfl
    | _ + 1, _ + 1 => rfl
  | succ n ih =>
    intro cs f1 f2 hn h1 h2
    match cs, f1, f2 with
    | [], 0, 0 => rfl
    | [], 0, _ + 1 => rfl
    | [], _ + 1, 0 => rfl
    | [], _ + 1, _ + 1 => rfl
    | c :: rest, f1 + 1, f2 + 1 =>
      simp only [List.length_cons] at hn h1 h2
      rw [stripAkaGo, stripAkaGo]
      rcases hm : matchAkaAt (c :: rest) with _ | r
      · rw [ih rest f1 f2 (by omega) (by omega) (by omega)]
      · have hr := matchAkaAt_length hm
        simp only [List.length_cons] at hr
        exact ih r f1 f2 (by omega) (by omega) (by omega)

def replCurly (c : Char) : Char :=
  if c = '’' then '\x27' else if c = '‘' then '\x27'
  else if c = '“' then '"' else if c = '”' then '"'
  else if c = '–' then '-' else if c = '—' then '-' else c

/-- `re.sub(r"[^a-z0-9]+", " ", ·)`: every maximal run of non-alphanumerics
becomes one space. -/
def subNonAlnum : Chars → Bool → Chars
  | [], _ => []
  | c :: cs, inRun =>
    if isLowerAlnum c then c :: subNonAlnum cs false
    else if inRun then subNonAlnum cs true
    else ' ' :: subNonAlnum cs true

/-- `_norm_key` (line 461) over the unicode environment `env`. -/
def normKeyL (env : UEnv) (name : Chars) : Chars :=
  if name.isEmpty then []
  else
    let s1 := pyStripL (stripAkaGo (name.length + 1) name)
    let s2 := (env.nfkd s1).filter (fun c => !env.combining c)
    let s3 := s2.map replCurly
    let s4 := pyStripL ((s3.flatMap env.lowerMap))
    let s5 := subNonAlnum s4 false
    joinWords (pyWords s5)

/-- The identity unicode environment: faithful for inputs containing no
decomposable or combining characters and only simple-lowercase letters
(`unicodedata.normalize("NFKD", s) == s`, `combining == 0`, characterwise
lowercasing), which covers every ASCII string. -/
def asciiUEnv : UEnv :=
  { nfkd := id, combining := fun _ => false, lowerMap := fun c => [c.toLower] }

/-- `_norm_key` instantiated at the concrete unicode environment. -/
def pyNormKey (s : String) : String := ⟨normKeyL asciiUEnv s.data⟩

/-- Python `needle in hay` (empty needle always matches). -/
def pyIn (needle hay : Chars) : Bool :=
  if needle.isEmpty then true else containsSub needle hay

/-! ### `_status_and_location_from_lines` (line 598) -/

/-- `loc_part.split(None, 1)`: maxsplit-1 split on whitespace. -/
def pySplitOnce (cs : Chars) : List Chars :=
  let t1 := cs.dropWhile isPySpace
  if t1.isEmpty then []
  else
    let w := t1.takeWhile (fun c => !isPySpace c)
    let r := (t1.dropWhile (fun c => !isPySpace c)).dropWhile isPySpace
    if r.isEmpty then [w] else [w, r]

/-- One iteration of the scanning loop (the body of the `for` over lines);
`lookahead` is `lines[i+1]` when it exists. -/
def statusLocStep (ln : String) (lookahead : Option String) (sv lv : String) :
    String × String :=
  let lnL := ln.data
  let up := pyStripL (lnL.map Char.toUpper)
  if startsWithL "STATUS".data up && pyIn "LOCATION".data up then
    -- Case 1: STATUS and LOCATION(S) on the same line
    let locPos := (findSubL "LOCATION".data up).getD 0
    let statusPart := lnL.take locPos
    let locPart := lnL.drop locPos
    let sv' : String := match afterFirst ':' statusPart with
      | some t => ⟨pyStripL t⟩
      | none => ⟨pyStripCharsL [' ', ':', '-', '\t'] (statusPart.drop 6)⟩
    let lv' : String := match afterFirst ':' locPart with
      | some t => ⟨pyStripL t⟩
      | none => match pySplitOnce locPart with
        | _ :: t :: _ => ⟨pyStripL t⟩
        | _ => ""
    (sv', lv')
  else
    -- Case 2: STATUS on its own line
    let sv' : String := if startsWithL "STATUS".data up then
        match afterFirst ':' lnL with
        | some t => ⟨pyStripL t⟩
        | none => ⟨pyStripCharsL [' ', ':', '-', '\t'] (lnL.drop 6)⟩
      else sv
    -- Case 3: LOCATION(S) on its own line (value possibly on the next line)
    let lv' : String := if startsWithL "LOCATION".data up then
        match afterFirst ':' lnL with
        | some t => ⟨pyStripL t⟩
        | none => match lookahead with
          | some nxt => pyStrip nxt
          | none => lv
      else lv
    (sv', lv')

def statusLocGo : List String → String → String → String × String
  | [], sv, lv => (sv, lv)
  | ln :: rest, sv, lv =>
    let p := statusLocStep ln rest.head? sv lv
    if p.1 ≠ "" && p.2 ≠ "" then p  -- once we have both, bail
    else statusLocGo rest p.1 p.2

/-- `_status_and_location_from_lines(lines)`. -/
def statusAndLocationFromLines (lines : List String) : String × String :=
  statusLocGo lines "" ""

/-! ### Region tables and `region_bucket` (lines 1225-1663) -/

def US_STATES : List String :=
  ["AL", "AK", "AZ", "AR", "CA", "CO", "CT", "DE", "DC", "FL", "GA", "HI",
   "ID", "IL", "IN", "IA", "KS", "KY", "LA", "ME", "MD", "MA", "MI", "MN",
   "MS", "MO", "MT", "NE", "NV", "NH", "NJ", "NM", "NY", "NC", "ND", "OH",
   "OK", "OR", "PA", "RI", "SC", "SD", "TN", "TX", "UT", "VT", "VA", "WA",
   "WV", "WI", "WY"]

def CA_PROV : List String :=
  ["AB", "BC", "MB", "NB", "NL", "NS", "NT", "NU", "ON", "PE", "QC", "SK", "YT"]

def FULL_STATE : List (String × String) :=
  [("alabama", "AL"), ("alaska", "AK"), ("arizona", "AZ"), ("arkansas", "AR"),
   ("california", "CA"), ("colorado", "CO"), ("connecticut", "CT"),
   ("delaware", "DE"), ("district of columbia", "DC"), ("florida", "FL"),
   ("georgia", "GA"), ("hawaii", "HI"), ("idaho", "ID"), ("illinois", "IL"),
   ("indiana", "IN"), ("iowa", "IA"), ("kansas", "KS"), ("kentucky", "KY"),
   ("louisiana", "LA"), ("maine", "ME"), ("maryland", "MD"),
   ("massachusetts", "MA"), ("michigan", "MI"), ("minnesota", "MN"),
   ("mississippi", "MS"), ("missouri", "MO"), ("montana", "MT"),
   ("nebraska", "NE"), ("nevada", "NV"), ("new hampshire", "NH"),
   ("new jersey", "NJ"), ("new mexico", "NM"), ("new york", "NY"),
   ("north carolina", "NC"), ("north dakota", "ND"), ("ohio", "OH"),
   ("oklahoma", "OK"), ("oregon", "OR"), ("pennsylvania", "PA"),
   ("rhode island", "RI"), ("south carolina", "SC"), ("south dakota", "SD"),
   ("tennessee", "TN"), ("texas", "TX"), ("utah", "UT"), ("vermont", "VT"),
   ("virginia", "VA"), ("washington", "WA"), ("west virginia", "WV"),
   ("wisconsin", "WI"), ("wyoming", "WY")]

/-- `FULL_PROV` as the resulting dict (the source lists
"newfoundland and labrador" twice; the dict keeps single keys). -/
def FULL_PROV : List (String × String) :=
  [("alberta", "AB"), ("british columbia", "BC"), ("manitoba", "MB"),
   ("new brunswick", "NB"), ("newfoundland and labrador", "NL"),
   ("nova scotia", "NS"), ("northwest territories", "NT"), ("nunavut", "NU"),
   ("ontario", "ON"), ("prince edward island", "PE"), ("quebec", "QC"),
   ("saskatchewan", "SK"), ("yukon", "YT"), ("newfoundland", "NL")]

def AU_STATES : List String :=
  ["NSW", "VIC", "QLD", "WA", "SA", "TAS", "ACT", "NT"]

def FULL_AU_STATE : List (String × String) :=
  [("new south wales", "NSW"), ("victoria", "VIC"), ("queensland", "QLD"),
   ("western australia", "WA"), ("south australia", "SA"),
   ("tasmania", "TAS"), ("australian capital territory", "ACT"),
   ("northern territory", "NT")]

def COUNTRY_ALIASES : List (String × String) :=
  [("usa", "USA"), ("u.s.a.", "USA"), ("u.s.", "USA"), ("us", "USA"),
   ("united states", "USA"), ("united states of america", "USA"),
   ("america", "USA"),
   ("canada", "Canada"), ("can.", "Canada"), ("can", "Canada"),
   ("united kingdom", "United Kingdom"), ("u.k.", "United Kingdom"),
   ("uk", "United Kingdom"), ("england", "United Kingdom"),
   ("scotland", "United Kingdom"), ("wales", "United Kingdom"),
   ("northern ireland", "United Kingdom"),
   ("australia", "Australia"), ("aus", "Australia"),
   ("new zealand", "New Zealand"), ("nz", "New Zealand"),
   ("ireland", "Ireland"), ("hungary", "Hungary"), ("poland", "Poland"),
   ("czech republic", "Czech Republic"), ("czechia", "Czech Republic"),
   ("france", "France"), ("germany", "Germany"), ("spain", "Spain"),
   ("italy", "Italy"), ("portugal", "Portugal"), ("thailand", "Thailand"),
   ("egypt", "Egypt"), ("japan", "Japan"), ("korea", "South Korea"),
   ("south korea", "South Korea")]

def EU_COUNTRIES : List String :=
  ["United Kingdom", "Ireland", "France", "Germany", "Spain", "Italy",
   "Netherlands", "Belgium", "Austria", "Switzerland", "Czech Republic",
   "Poland", "Romania", "Bulgaria", "Denmark", "Sweden", "Norway", "Finland",
   "Iceland", "Portugal", "Greece", "Slovakia", "Slovenia", "Croatia",
   "Lithuania", "Latvia", "Estonia", "Luxembourg", "Malta", "Hungary",
   "Serbia"]

/-- `_as_country` (line 1389). -/
def asCountry (token : String) : String :=
  let t := pyLower (pyStrip token)
  ((COUNTRY_ALIASES.find? (fun p => p.1 == t)).map (·.2)).getD ""

/-- `s.split("+")[0] if s else ""`. -/
def firstPlusComp (s : String) : String :=
  if s.data.isEmpty then "" else ⟨(splitOnChar '+' s.data).headD []⟩

/-- Lines 1633-1640 of `region_bucket`: normalise the country, or infer it
from the (already stripped and uppercased) first region component. -/
def inferredCountry (firstRegion firstCountry : String) : String :=
  let a := asCountry (pyLower firstCountry)
  let ctry := if a ≠ "" then a else firstCountry
  if ctry == "" && firstRegion ≠ "" then
    if US_STATES.contains firstRegion ||
        FULL_STATE.any (fun p => p.1 == pyLower firstRegion) then "USA"
    else if CA_PROV.contains firstRegion ||
        FULL_PROV.any (fun p => p.1 == pyLower firstRegion) then "Canada"
    else if AU_STATES.contains firstRegion ||
        FULL_AU_STATE.any (fun p => p.1 == pyLower firstRegion) then "Australia"
    else ctry
  else ctry

/-- `region_bucket` (line 1622). -/
def region_bucket (city region country : String) : String :=
  let _first_city := pyStrip (firstPlusComp city)  -- computed, never used
  let first_region := pyUpper (pyStrip (firstPlusComp region))
  let first_country := pyStrip (firstPlusComp country)
  let ctry := inferredCountry first_region first_country
  if ctry == "Canada" then
    if first_region == "BC" then "West Coast Canada"
    else if first_region == "QC" then "Quebec"
    else "East Coast Canada"
  else if ctry == "USA" || ctry == "United States" then "United States"
  else if ctry == "Ireland" || ctry == "Hungary" then "Ireland/Hungary"
  else if ctry == "Australia" || ctry == "New Zealand" then "Australia/New Zealand"
  else if EU_COUNTRIES.contains ctry then "Europe/Other"
  else "Other"

/-! ### `detect_prod_co` (line 1890) and `to_master_row` (line 1798) -/

/-- `KNOWN_PROD_CO_MAPPING` after the `.update` call. -/
def KNOWN_PROD_CO_MAPPING : List (String × String) :=
  [("disney", "Disney"), ("marvel studios", "Marvel Studios"),
   ("lucasfilm", "Lucasfilm"), ("20th century studios", "20th Century Studios"),
   ("warner bros. television", "Warner Bros."),
   ("warner bros. pictures", "Warner Bros."),
   ("warner bros. entertainment", "Warner Bros."),
   ("warner bros.", "Warner Bros."), ("new line cinema", "New Line Cinema"),
   ("dc studios", "DC Studios"), ("universal pictures", "Universal Pictures"),
   ("universal television", "Universal Pictures"),
   ("focus features", "Focus Features"), ("dreamworks", "DreamWorks"),
   ("sony pictures animation", "Sony Pictures"),
   ("sony pictures", "Sony Pictures"), ("columbia pictures", "Sony Pictures"),
   ("tristar pictures", "Sony Pictures"), ("tristar", "Sony Pictures"),
   ("screen gems", "Sony Pictures"),
   ("paramount pictures", "Paramount Pictures"),
   ("nickelodeon movies", "Paramount Pictures"),
   ("paramount animation", "Paramount Pictures"),
   ("amazon mgm studios", "Amazon MGM Studios"),
   ("mgm", "Amazon MGM Studios"), ("orion pictures", "Amazon MGM Studios"),
   ("orion", "Amazon MGM Studios"), ("netflix studios", "Netflix"),
   ("netflix", "Netflix"), ("apple original films", "Apple"),
   ("apple tv+", "Apple"), ("apple studios", "Apple"), ("apple", "Apple"),
   ("blumhouse productions", "Blumhouse Productions"),
   ("atomic monster", "Atomic Monster"),
   ("legendary entertainment", "Legendary Entertainment"),
   ("bad robot", "Bad Robot"), ("skydance media", "Skydance"),
   ("skydance", "Skydance"), ("lionsgate films", "Lionsgate"),
   ("lionesgate", "Lionsgate"), ("summit entertainment", "Summit Entertainment"),
   ("a24", "A24"), ("toho company", "Toho"), ("toho", "Toho"),
   ("cj enm", "CJ ENM"), ("tencent pictures", "Tencent Pictures"),
   ("proximity productions llc", "Proximity Productions"),
   ("doozer productions", "Doozer Productions"),
   ("two soups productions", "Two Soups Productions"),
   ("amazon studios", "Amazon Studios"),
   ("playstation productions", "PlayStation Productions")]

def insertAsc (s : String) : List String → List String
  | [] => [s]
  | t :: ts => if t < s then t :: insertAsc s ts else s :: t :: ts

/-- `sorted` on strings (ascending, code-point lexicographic). -/
def sortStrings : List String → List String
  | [] => []
  | s :: ss => insertAsc s (sortStrings ss)

/-- `detect_prod_co` (line 1890): the key iteration order (longest first)
does not affect the result, since hits go into a set that is then sorted;
the embedding collects the distinct canonical names of all substring hits. -/
def detect_prod_co (row : Row) : String :=
  let searchText := pyLower (joinWithSep " "
    [row.get "Description", row.get "Studio Info",
     row.get "Production Company", row.get "Director/Producer"])
  let found := ((KNOWN_PROD_CO_MAPPING.filter
    (fun p => pyIn p.1.data searchText.data)).map (·.2)).dedup
  joinWithSep "+" (sortStrings found)

/-- `to_master_row` (line 1798).  The local `months` string is computed by
the source but used nowhere, so it is omitted; no `"Notes"` key is built. -/
def toMasterRow (row : Row) (issueLink : String) : Row :=
  let days := pyStrip (row.get "Computed Production Length")
  let city := row.get "City"
  let region := row.get "Province/State"
  let country := row.get "Country"
  let bucket := region_bucket city region country
  [("Region Bucket", bucket),
   ("Category", row.get "Category"),
   ("Production Name", row.get "Production Name"),
   ("Issue Link", issueLink),
   ("Start Month", row.get "Start Month"),
   ("Shooting Dates", row.get "Shooting Dates"),
   ("Actively in Production", row.get "Actively in Production"),
   ("Date Pushed Back?", row.get "If It Was Pushed"),
   ("Length (Days)", days),
   ("Description", row.get "Description"),
   ("City", city),
   ("Province/State", region),
   ("Country", country),
   ("Type", row.get "Type"),
   ("Director/Producer", row.get "Director/Producer"),
   ("VFX Notes", row.get "VFX Team"),
   ("IMDb Link", ""),
   ("Studio Name", row.get "Studio Info"),
   ("Production Office", row.get "Production Office"),
   ("Production Phone/Email",
     pyStrip (row.get "Production Phone" ++ " " ++ row.get "Production Email")),
   ("Prod. Co", detect_prod_co row)]

/-- `_weekly_to_master_projection` (line 953): delegates to `to_master_row`
with the issue link (the region label is accepted and ignored). -/
def weeklyToMasterProjection (weeklyRow : Row) (_regionLabel issueLink : String) : Row :=
  toMasterRow weeklyRow issueLink

/-! ### `_changed_vs_master` (line 909) -/

def FIELDS_TO_COMPARE_AGAINST_MASTER : List String :=
  ["Production Name", "Shooting Dates", "Start Month", "City",
   "Province/State", "Country", "Type", "Director/Producer",
   "Production Company"]

/-- The per-field test of the `_changed_vs_master` loop body (the
`Production Phone`/`Production Email` branches are present in the source's
dispatch but unreachable for the fixed field list above). -/
def masterFieldDiffers (master weekly : Row) (f : String) : Bool :=
  let ov := master.get f
  let nv := weekly.get f
  if NA_TOKENS.contains (normText nv) && !(NA_TOKENS.contains (normText ov)) then
    false  -- weekly blank, master filled: a parsing miss, not a change
  else if f == "Production Name" then !(pyNormKey ov == pyNormKey nv)
  else if f == "Shooting Dates" then !(equivDates ov nv)
  else if f == "Type" then !(normType ov == normType nv)
  else if f == "Start Month" then
    !(startMonthFromSpan (master.get "Shooting Dates") ==
      startMonthFromSpan (weekly.get "Shooting Dates"))
  else if f == "Production Phone" then
    !(normPhoneForCompare ov == normPhoneForCompare nv)
  else if f == "Production Email" then
    !(normEmailForCompare ov == normEmailForCompare nv)
  else !(equiv ov nv)

/-- `_changed_vs_master(master, weekly)`. -/
def changedVsMaster (master weekly : Row) : List String :=
  FIELDS_TO_COMPARE_AGAINST_MASTER.filter (masterFieldDiffers master weekly)

/-! ### Push-back date helpers (lines 2004-2056) -/

/-- `_start_date_from_shooting_dates` (line 2004), with the 6-group
`RE_DATE_RANGE`: `y = y1 or y2`. -/
def startDateFromShootingDates (s : String) : Option PyDate :=
  match searchDR s.data with
  | none => none
  | some (_, g, _) =>
    let y := match g.y1 with | some y1 => y1 | none => g.y2
    match monthsLookup (pyLower ⟨g.m1⟩) with
    | some mo => mkDate (digitsToNat y) mo (digitsToNat g.d1)
    | none => none  -- KeyError inside the try → None

/-- Month-name alternation of `_approx_start_date_from_start_month`
(case-sensitive, anchored); no name is a prefix of another. -/
def MONTH_NAMES : List (String × Nat) :=
  [("January", 1), ("February", 2), ("March", 3), ("April", 4), ("May", 5),
   ("June", 6), ("July", 7), ("August", 8), ("September", 9), ("October", 10),
   ("November", 11), ("December", 12)]

/-- `_approx_start_date_from_start_month` (line 2033):
`re.match(r"^(January|...|December)\s+(\d{4})\b", t)` then the first of the
month. -/
def approxStartDateFromStartMonth (s : String) : Option PyDate :=
  if s.data.isEmpty then none
  else
    let t := pyStripL s.data
    match MONTH_NAMES.find? (fun p => startsWithL p.1.data t) with
    | none => none
    | some (nm, mo) =>
      let r1 := t.drop nm.data.length
      let w := r1.takeWhile isPySpace
      let r2 := r1.dropWhile isPySpace
      if w.isEmpty then none
      else match takeExactDigits 4 r2 with
        | some (ds, r3) =>
          let wordChar : Char → Bool :=
            fun c => isAlphaChar c || isDigitChar c || c = '_'
          (match r3 with
           | [] => mkDate (digitsToNat ds) mo 1
           | c :: _ => if wordChar c then none else mkDate (digitsToNat ds) mo 1)
        | none => none

/-! ### `master_compare_cmd` comparison core (lines 1008-1083)

The file I/O around it (reading the CSVs, writing the output CSV) is not
modelled; the core takes the already-loaded rows and the baseline title
list and produces the `diff_rows_master` list of projected rows. -/

/-- Replace-or-append on an association list (Python dict assignment). -/
def alSet {α : Type} : List (String × α) → String → α → List (String × α)
  | [], k, v => [(k, v)]
  | (k', v') :: rest, k, v =>
    if k' == k then (k, v) :: rest else (k', v') :: alSet rest k v

/-- `{_norm_key(t): i+1 for i, t in enumerate(base_titles)}`: a later
duplicate key overwrites an earlier one. -/
def buildBaselineIndex (titles : List String) : List (String × Nat) :=
  titles.enum.foldl (fun m p => alSet m (pyNormKey p.2) (p.1 + 1)) []

/-- `baseline_index.get(k, 0)`. -/
def baselineGet (idx : List (String × Nat)) (k : String) : Nat :=
  ((idx.find? (fun p => p.1 == k)).map (·.2)).getD 0

/-- `f"{n:03d}"` for a natural number. -/
def pad3 (n : Nat) : String :=
  if n < 10 then "00" ++ toString n
  else if n < 100 then "0" ++ toString n
  else toString n

/-- `_region_from_master` (line 876): the unique nonempty `Region` value, if
there is exactly one distinct such value. -/
def regionFromMaster (rows : List Row) : String :=
  let vals := ((rows.map (fun r => pyStrip (r.get "Region"))).filter
    (fun v => v ≠ "")).dedup
  match vals with
  | [v] => v
  | _ => ""

/-- One step of the `m_map`/`w_map` construction. -/
def buildKeyMapStep (m : List (String × Row)) (r : Row) : List (String × Row) :=
  let k := pyNormKey (r.get "Production Name")
  if k ≠ "" && (m.find? (fun p => p.1 == k)).isNone then m ++ [(k, r)]
  else m

/-- The `m_map`/`w_map` construction (lines 1014-1019 and 1030-1036): keyed
by normalized title, first record wins, empty keys skipped; the association
list keeps insertion order, so it also serves as `w_order`. -/
def buildKeyMap (rows : List Row) : List (String × Row) :=
  rows.foldl buildKeyMapStep []

/-- The region filter on weekly rows (lines 1022-1028). -/
def weeklyKept (weeklyRows : List Row) (region : String) : List Row :=
  weeklyRows.filter (fun r =>
    region == "" ||
      region_bucket (r.get "City") (r.get "Province/State") (r.get "Country")
        == region)

/-- The body of the comparison loop for one weekly key (lines 1041-1083). -/
def masterCompareEntry (mMap : List (String × Row))
    (baselineIndex : List (String × Nat)) (region weeklyLabel : String)
    (k : String) (weeklyRecord : Row) : Option Row :=
  match mMap.find? (fun p => p.1 == k) with
  | some p =>
    -- UPDATED vs Master
    let masterRecord := p.2
    let diffs := changedVsMaster masterRecord weeklyRecord
    if diffs.isEmpty then none  -- no changes vs master → no row
    else
      let ms0 := startDateFromShootingDates (masterRecord.get "Shooting Dates")
      let ws0 := startDateFromShootingDates (weeklyRecord.get "Shooting Dates")
      let needFallback := !(ms0.isSome && ws0.isSome)
      let ms := if needFallback then
          ms0.orElse (fun _ =>
            approxStartDateFromStartMonth (masterRecord.get "Start Month"))
        else ms0
      let ws := if needFallback then
          ws0.orElse (fun _ =>
            approxStartDateFromStartMonth (weeklyRecord.get "Start Month"))
        else ws0
      let pushed := match ms, ws with
        | some a, some b => a.ltB b
        | _, _ => false
      let note := "UPDATED vs Master (" ++ joinWithSep ", " diffs ++
        ") – Prod. #" ++ pad3 (baselineGet baselineIndex k) ++
        " (" ++ weeklyLabel ++ ")"
      let note := if pushed then note ++ " | Date pushed back" else note
      let outputRow := (weeklyRecord.set "Category" "Updated vs Master").set
        "Notes" note
      let outputRow := if pushed then outputRow.set "If It Was Pushed" "Yes"
        else outputRow
      some (weeklyToMasterProjection outputRow region weeklyLabel)
  | none =>
    -- NEW to Master
    let note := "NEW to Master – Prod. #" ++
      pad3 (baselineGet baselineIndex k) ++ " (" ++ weeklyLabel ++ ")"
    let outputRow := (weeklyRecord.set "Category" "New to Master").set
      "Notes" note
    some (weeklyToMasterProjection outputRow region weeklyLabel)

/-- The comparison core of `master_compare_cmd`: produces
`diff_rows_master`. -/
def masterCompareCore (masterRows weeklyRows : List Row)
    (baseTitles : List String) (region0 weeklyLabel : String) : List Row :=
  let baselineIndex := buildBaselineIndex baseTitles
  let region := if region0 == "" then regionFromMaster masterRows else region0
  let mMap := buildKeyMap masterRows
  let wMap := buildKeyMap (weeklyKept weeklyRows region)
  wMap.foldl (fun acc p =>
    match masterCompareEntry mMap baselineIndex region weeklyLabel p.1 p.2 with
    | some row => acc ++ [row]
    | none => acc) []

/-! ### `_collapse_dupes` (line 1985) -/

/-- The completeness score of `_collapse_dupes`. -/
def dupScore (row : Row) : Nat :=
  (["Shooting Dates", "Description", "Director/Producer", "All Locations",
    "City", "Province/State", "Country"].filter (fun f =>
      !(pyStrip (row.get f)).isEmpty && pyStrip (row.get f) ≠ "N/A")).length

/-- `_collapse_dupes(rows)`: the key-ordered best map and the logged
duplicate pairs.  A later record replaces the incumbent only when its score
is strictly higher. -/
def collapseDupes (rows : List Row) :
    List (String × Row) × List (String × String) :=
  rows.foldl (fun st r =>
    let k := pyNormKey (r.get "Production Name")
    if k == "" then st
    else match st.1.find? (fun p => p.1 == k) with
      | none => (st.1 ++ [(k, r)], st.2)
      | some p =>
        let b := p.2
        let dupes := st.2 ++ [(r.get "Production Name", b.get "Production Name")]
        if dupScore b < dupScore r then (alSet st.1 k r, dupes)
        else (st.1, dupes)) ([], [])

/-! ### `compare_cmd` comparison core (lines 2069-2144) -/

def COMPARE_FIELDS : List String :=
  ["Production Name", "Shooting Dates", "Start Month", "City",
   "Province/State", "Country", "Type", "Format Label", "Director/Producer",
   "All Locations", "Production Office", "Production Company"]

/-- `_changed_fields` (line 2060). -/
def changedFields (old new : Row) : List String :=
  COMPARE_FIELDS.filter (fun f => !(equiv (old.get f) (new.get f)))

/-- The best-match scan over the old rows for one new title (lines
2085-2103): skip rows already matched, keep the first strictly-improving
score; `sim` models `fuzz.token_set_ratio` (0-100).  `i` is the index of the
head of the remaining list, `best` the accumulated (score, index). -/
def bestUnmatchedGo (sim : String → String → Nat) (nTitleNorm : String) :
    List (Row × Bool) → Nat → Nat × Option Nat → Nat × Option Nat
  | [], _, best => best
  | o :: rest, i, best =>
    let best' := if o.2 then best
      else
        let score := sim nTitleNorm (normText (o.1.get "Production Name"))
        if best.1 < score then (score, some i) else best
    bestUnmatchedGo sim nTitleNorm rest (i + 1) best'

def bestUnmatched (sim : String → String → Nat) (olds : List (Row × Bool))
    (nTitleNorm : String) : Nat × Option Nat :=
  bestUnmatchedGo sim nTitleNorm olds 0 (0, none)

/-- Set the `_matched` flag of old row `i`. -/
def markMatched : List (Row × Bool) → Nat → List (Row × Bool)
  | [], _ => []
  | o :: rest, 0 => (o.1, true) :: rest
  | o :: rest, i + 1 => o :: markMatched rest i

def sq : String := "\x27"

/-- The 50-90 band note: `UPDATED (Name changed from '<old>' to '<new>')`. -/
def renameNote (oldName newName : String) : String :=
  "UPDATED (Name changed from " ++ sq ++ oldName ++ sq ++ " to " ++ sq ++
    newName ++ sq ++ ")"

/-- Lines 2114-2117: the confident-match Updated row. -/
def updatedRow (nRow : Row) (diffs : List String) : Row :=
  fillNa ((nRow.set "Category" "Updated").set "Notes"
    ("UPDATED (" ++ joinWithSep ", " diffs ++ ")"))

/-- Lines 2123-2127: the rename-band Updated row. -/
def renamedRow (nRow : Row) (oldName : String) : Row :=
  fillNa ((nRow.set "Category" "Updated").set "Notes"
    (renameNote oldName (nRow.get "Production Name")))

/-- Lines 2133-2135: the New row. -/
def newRow (nRow : Row) (newLabel : String) : Row :=
  fillNa ((nRow.set "Category" "New").set "Notes" ("NEW – from " ++ newLabel))

/-- Lines 2141-2143: the Removed row. -/
def removedRow (oRow : Row) (oldLabel : String) : Row :=
  fillNa ((oRow.set "Category" "Removed").set "Notes"
    ("REMOVED – from " ++ oldLabel))

/-- The per-new-record body of the fuzzy comparison loop (lines 2085-2136):
returns the updated old-row states and the emitted output row, if any. -/
def processNew (sim : String → String → Nat) (olds : List (Row × Bool))
    (nRow : Row) (newLabel : String) : List (Row × Bool) × Option Row :=
  let nTitleNorm := normText (nRow.get "Production Name")
  let best := bestUnmatched sim olds nTitleNorm
  if 90 < best.1 then
    -- > 90: confident match; emit only if some compared field differs
    match best.2 with
    | some i =>
      let bestRow := ((olds.get? i).map Prod.fst).getD []
      let olds2 := markMatched olds i
      let diffs := changedFields bestRow nRow
      if diffs.isEmpty then (olds2, none)
      else (olds2, some (updatedRow nRow diffs))
    | none => (olds, none)  -- unreachable: a positive score records an index
  else if 50 ≤ best.1 then
    -- 50 ≤ score ≤ 90: likely rename / major update; always emit
    match best.2 with
    | some i =>
      let bestRow := ((olds.get? i).map Prod.fst).getD []
      let olds2 := markMatched olds i
      (olds2, some (renamedRow nRow (bestRow.get "Production Name")))
    | none => (olds, none)  -- unreachable: a positive score records an index
  else
    -- < 50: a NEW production
    (olds, some (newRow nRow newLabel))

/-- The comparison core of `compare_cmd`: the fuzzy loop over new rows
followed by the Removed sweep over unmatched old rows. -/
def compareCore (sim : String → String → Nat) (oldRows newRows : List Row)
    (oldLabel newLabel : String) : List Row :=
  let init : List (Row × Bool) := oldRows.map (fun r => (r, false))
  let res := newRows.foldl (fun st n =>
      let pr := processNew sim st.1 n newLabel
      (pr.1, st.2 ++ pr.2.toList)) (init, ([] : List Row))
  res.2 ++ (res.1.filter (fun p => !p.2)).map (fun p => removedRow p.1 oldLabel)

/-! ### Gazetteer resolver `world_lookup_city` (line 1177)

The offline city table (`geonamescache`), the country-name map, the admin-1
normalisation and `fuzz.partial_ratio` are external data and library
functions, modelled as the fields of a `Gaz` environment. -/

structure GazCity where
  name : String
  countrycode : String
  admin1code : String
deriving DecidableEq, Repr

structure Gaz where
  cities : List GazCity
  countryName : String → String
  admin1 : String → String → String
  sim : String → String → Nat

/-- `_city_candidates(name_lower)`: exact case-insensitive name matches. -/
def cityCandidates (g : Gaz) (q : String) : List GazCity :=
  g.cities.filter (fun c => pyLower c.name == q)

/-- The fuzzy scan of lines 1188-1193: first strictly-improving score wins,
and the scan breaks as soon as a score of at least 98 is recorded. -/
def scanBest (g : Gaz) (q : String) :
    List GazCity → Nat → Option String → Nat × Option String
  | [], bs, bn => (bs, bn)
  | c :: rest, bs, bn =>
    let s := g.sim q (pyLower c.name)
    if bs < s then
      if 98 ≤ s then (s, some (pyLower c.name))
      else scanBest g q rest s (some (pyLower c.name))
    else scanBest g q rest bs bn

/-- `cand_score` (line 1199): +2 for a country-hint match, +1 for a
region-hint match. -/
def candScore (g : Gaz) (regionHint countryHint : String) (c : GazCity) : Nat :=
  (if countryHint ≠ "" &&
      (pyLower (pyStrip countryHint) == pyLower (g.countryName c.countrycode) ||
       pyLower (pyStrip countryHint) == pyLower c.countrycode) then 2 else 0) +
  (if regionHint ≠ "" &&
      pyLower (pyStrip regionHint) == pyLower (g.admin1 c.countrycode c.admin1code)
   then 1 else 0)

/-- Stable insertion for a descending sort by a numeric key. -/
def insertDescBy (key : GazCity → Nat) (x : GazCity) :
    List GazCity → List GazCity
  | [] => [x]
  | y :: ys => if key y ≤ key x then x :: y :: ys else y :: insertDescBy key x ys

/-- `cands.sort(key=cand_score, reverse=True)`: stable descending sort. -/
def sortDescBy (key : GazCity → Nat) : List GazCity → List GazCity
  | [] => []
  | x :: xs => insertDescBy key x (sortDescBy key xs)

/-- `world_lookup_city(city_raw, region_hint, country_hint)`. -/
def worldLookupCity (g : Gaz) (cityRaw regionHint countryHint : String) :
    String × String × String :=
  if cityRaw == "" then ("", "", "")
  else
    let q := pyLower (pyStrip cityRaw)
    let cands0 := cityCandidates g q
    let cands :=
      if cands0.isEmpty then
        let bsbn := scanBest g q g.cities 0 none
        if 90 ≤ bsbn.1 then
          match bsbn.2 with
          | some n => cityCandidates g n
          | none => []  -- unreachable: a score of 90 records a name
        else []  -- fuzzy miss: `return ("","","")` below via the empty list
      else cands0
    match sortDescBy (candScore g regionHint countryHint) cands with
    | [] => ("", "", "")
    | hit :: _ =>
      let iso2 := hit.countrycode
      let country := g.countryName iso2
      let admin1 := g.admin1 iso2 hit.admin1code
      -- line 1218: `region = admin1 if len(admin1) <= 3 else admin1`
      (hit.name, admin1, country)

/-! ## Claim theorems -/

/-- C1: the spec's year-wrap contract fails on the code.  The block-text
parser `_parse_date_range` cannot match the spec's own example
`"November 3 - March 15 2026"` at all (its regex demands a comma before the
end year), and `_parse_span_flexible` — whose docstring promises exactly
this comma-less parse, including the wrap example `"Nov 3 – May 15 2026"` —
hits the undefined variable `year` on the wrap path (the parsed year is
`y`), so its `except` swallows the `NameError` and it returns `None`
instead of a 2025-start/2026-end span.  With a comma the wrap logic of
`_parse_date_range` does decrement the start year as claimed. -/
theorem C1_year_wrap_failing_input :
    parseDateRange "November 3 - March 15 2026" = ("", none, none) ∧
    parseSpanFlexible "November 3 - March 15 2026" = none ∧
    parseSpanFlexible "Nov 3 – May 15 2026" = none ∧
    parseDateRange "November 3 - March 15, 2026" =
      ("November 3 – March 15, 2026", some ⟨2025, 11, 3⟩, some ⟨2026, 3, 15⟩) := by
  refine ⟨?_, ?_, ?_, ?_⟩ <;> rfl

/-- C4 (counterexample): with two STATUS lines before the LOCATION line, the
scanner returns the *second* STATUS value, not the first: the claim that
the value of the first STATUS-marked line wins is false. -/
theorem C4_counterexample :
    statusAndLocationFromLines
        ["STATUS: Active", "STATUS: Prep", "LOCATION: Vancouver, BC"] =
      ("Prep", "Vancouver, BC") ∧
    (statusLocStep "STATUS: Active" (some "STATUS: Prep") "" "").1 = "Active" ∧
    ("Prep" : String) ≠ "Active" := by
  refine ⟨rfl, rfl, by decide⟩

/-- C4 (amended): the scanner overwrites.  On any STATUS-marked line the new
status value is computed from the line alone, independent of the previously
captured pair; likewise on any LOCATION-marked line whenever the line can
produce a value (a colon on the line, or a lookahead line for a colon-less
marker — with no colon and no following line the old value is kept); a line
with neither marker changes nothing; and the loop stops at the first line
after which both values are non-empty — the lines beyond that line's
lookahead are never examined — and otherwise continues with the updated
values. -/
theorem C4_last_marker_wins_until_both_found (ln : String) (la : Option String) (sv lv sv2 lv2 : String)
    (rest rest2 : List String) :
    (startsWithL "STATUS".data (pyStripL (ln.data.map Char.toUpper)) = true →
      (statusLocStep ln la sv lv).1 = (statusLocStep ln la sv2 lv2).1) ∧
    (startsWithL "LOCATION".data (pyStripL (ln.data.map Char.toUpper)) = true →
      afterFirst ':' ln.data ≠ none ∨ la ≠ none →
      (statusLocStep ln la sv lv).2 = (statusLocStep ln la sv2 lv2).2) ∧
    (startsWithL "STATUS".data (pyStripL (ln.data.map Char.toUpper)) = false →
      startsWithL "LOCATION".data (pyStripL (ln.data.map Char.toUpper)) =
        false →
      statusLocStep ln la sv lv = (sv, lv)) ∧
    (rest.head? = rest2.head? →
      (statusLocStep ln rest.head? sv lv).1 ≠ "" →
      (statusLocStep ln rest.head? sv lv).2 ≠ "" →
      statusLocGo (ln :: rest) sv lv = statusLocGo (ln :: rest2) sv lv) ∧
    (¬((statusLocStep ln rest.head? sv lv).1 ≠ "" ∧
        (statusLocStep ln rest.head? sv lv).2 ≠ "") →
      statusLocGo (ln :: rest) sv lv =
        statusLocGo rest (statusLocStep ln rest.head? sv lv).1
          (statusLocStep ln rest.head? sv lv).2) := by
  refine ⟨?stat, ?loc, ?nomark, ?stop, ?cont⟩
  case stat =>
    intro h
    unfold statusLocStep
    dsimp only
    by_cases hc : (startsWithL "STATUS".data
        (pyStripL (ln.data.map Char.toUpper)) &&
        pyIn "LOCATION".data (pyStripL (ln.data.map Char.toUpper))) = true
    · rw [if_pos hc, if_pos hc]
    · rw [if_neg hc, if_neg hc]
      dsimp only
      rw [if_pos h, if_pos h]
  case loc =>
    intro h hval
    have hns : startsWithL "STATUS".data
        (pyStripL (ln.data.map Char.toUpper)) = false := by
      rcases hup : pyStripL (ln.data.map Char.toUpper) with _ | ⟨c, cs⟩
      · rw [hup] at h
        exact absurd h (by decide)
      · rw [hup] at h
        have hcl : 'L' = c := by
          by_contra hne
          have h2 : (decide ('L' = c) &&
              startsWithL ['O', 'C', 'A', 'T', 'I', 'O', 'N'] cs) = true := h
          rw [decide_eq_false hne, Bool.false_and] at h2
          exact Bool.noConfusion h2
        subst hcl
        show (decide ('S' = 'L') && startsWithL ['T', 'A', 'T', 'U', 'S'] cs) =
          false
        rw [show decide ('S' = 'L') = false from rfl, Bool.false_and]
    have hc1 : ¬((startsWithL "STATUS".data
        (pyStripL (ln.data.map Char.toUpper)) &&
        pyIn "LOCATION".data (pyStripL (ln.data.map Char.toUpper))) = true) :=
      by simp [hns]
    unfold statusLocStep
    dsimp only
    rw [if_neg hc1, if_neg hc1]
    dsimp only
    rw [if_pos h, if_pos h]
    rcases hcol : afterFirst ':' ln.data with _ | t
    · rcases hval with hv | hv
      · exact absurd hcol hv
      · rcases la with _ | nxt
        · exact absurd rfl hv
        · rfl
    · rfl
  case nomark =>
    intro h1 h2
    have hc1 : ¬((startsWithL "STATUS".data
        (pyStripL (ln.data.map Char.toUpper)) &&
        pyIn "LOCATION".data (pyStripL (ln.data.map Char.toUpper))) = true) :=
      by simp [h1]
    have hc2 : ¬(startsWithL "STATUS".data
        (pyStripL (ln.data.map Char.toUpper)) = true) := by simp [h1]
    have hc3 : ¬(startsWithL "LOCATION".data
        (pyStripL (ln.data.map Char.toUpper)) = true) := by simp [h2]
    unfold statusLocStep
    dsimp only
    rw [if_neg hc1]
    rw [if_neg hc2, if_neg hc3]
  case stop =>
    intro hh hp1 hp2
    have e1 : statusLocGo (ln :: rest) sv lv =
        (if (decide ((statusLocStep ln rest.head? sv lv).1 ≠ "") &&
             decide ((statusLocStep ln rest.head? sv lv).2 ≠ "")) = true
         then statusLocStep ln rest.head? sv lv
         else statusLocGo rest (statusLocStep ln rest.head? sv lv).1
           (statusLocStep ln rest.head? sv lv).2) := rfl
    have e2 : statusLocGo (ln :: rest2) sv lv =
        (if (decide ((statusLocStep ln rest2.head? sv lv).1 ≠ "") &&
             decide ((statusLocStep ln rest2.head? sv lv).2 ≠ "")) = true
         then statusLocStep ln rest2.head? sv lv
         else statusLocGo rest2 (statusLocStep ln rest2.head? sv lv).1
           (statusLocStep ln rest2.head? sv lv).2) := rfl
    rw [e1, e2, ← hh]
    rw [if_pos (by simp [hp1, hp2]), if_pos (by simp [hp1, hp2])]
  case cont =>
    intro hnp
    have e1 : statusLocGo (ln :: rest) sv lv =
        (if (decide ((statusLocStep ln rest.head? sv lv).1 ≠ "") &&
             decide ((statusLocStep ln rest.head? sv lv).2 ≠ "")) = true
         then statusLocStep ln rest.head? sv lv
         else statusLocGo rest (statusLocStep ln rest.head? sv lv).1
           (statusLocStep ln rest.head? sv lv).2) := rfl
    rw [e1, if_neg (by simpa using hnp)]


/-- C4 witness: the amended scanning contract at concrete lines — a second
STATUS line overwrites independently of the captured value, a LOCATION line
with a colon overwrites, a markerless line changes nothing, a line
completing both values makes the remaining lines irrelevant, and an
incomplete line continues the scan with its values. -/
theorem C4_last_marker_witness :
    ((statusLocStep "STATUS: Prep" (some "LOCATION: Vancouver, BC")
        "Active" "").1 =
      (statusLocStep "STATUS: Prep" (some "LOCATION: Vancouver, BC")
        "" "").1) ∧
    ((statusLocStep "LOCATION: Lyon" none "" "Paris").2 =
      (statusLocStep "LOCATION: Lyon" none "X" "Y").2) ∧
    (statusLocStep "Budget: 100" none "S" "L" = ("S", "L")) ∧
    (statusLocGo ["LOCATION: Vancouver, BC", "EXTRA"] "Prep" "" =
      statusLocGo ["LOCATION: Vancouver, BC", "EXTRA", "MORE"] "Prep" "") ∧
    (statusLocGo ["STATUS: Active", "STATUS: Prep"] "" "" =
      statusLocGo ["STATUS: Prep"] "Active" "") :=
  ⟨(C4_last_marker_wins_until_both_found "STATUS: Prep"
      (some "LOCATION: Vancouver, BC") "Active" "" "" "" [] []).1 (by decide),
   (C4_last_marker_wins_until_both_found "LOCATION: Lyon" none "" "Paris"
      "X" "Y" [] []).2.1 (by decide) (Or.inl (by decide)),
   (C4_last_marker_wins_until_both_found "Budget: 100" none "S" "L" "" ""
      [] []).2.2.1 (by decide) (by decide),
   (C4_last_marker_wins_until_both_found "LOCATION: Vancouver, BC" none
      "Prep" "" "" "" ["EXTRA"] ["EXTRA", "MORE"]).2.2.2.1 rfl (by decide)
     (by decide),
   (C4_last_marker_wins_until_both_found "STATUS: Active" none "" "" "" ""
      ["STATUS: Prep"] []).2.2.2.2 (by decide)⟩

theorem splitOnChar_ne_nil (sep : Char) (cs : Chars) :
    splitOnChar sep cs ≠ [] := by
  induction cs with
  | nil => simp [splitOnChar]
  | cons c cs ih =>
    rw [splitOnChar]
    split
    · simp
    · revert ih
      match splitOnChar sep cs with
      | [] => intro ih; simp
      | w :: ws => intro ih; simp

theorem splitOnChar_head_no_sep (sep : Char) (cs : Chars) :
    sep ∉ (splitOnChar sep cs).headD [] := by
  induction cs with
  | nil => simp [splitOnChar]
  | cons c cs ih =>
    rw [splitOnChar]
    split
    · simp
    · rename_i hc
      revert ih
      rcases h : splitOnChar sep cs with _ | ⟨w, ws⟩
      · exact absurd h (splitOnChar_ne_nil sep cs)
      · intro ih
        simp only [List.headD_cons] at ih ⊢
        simp only [List.mem_cons, not_or]
        exact ⟨fun he => hc he.symm, ih⟩

theorem splitOnChar_no_sep {sep : Char} {cs : Chars} (h : sep ∉ cs) :
    splitOnChar sep cs = [cs] := by
  induction cs with
  | nil => rfl
  | cons c cs ih =>
    simp only [List.mem_cons, not_or] at h
    rw [splitOnChar, if_neg (fun he => h.1 he.symm), ih h.2]

theorem firstPlusComp_idem (s : String) :
    firstPlusComp (firstPlusComp s) = firstPlusComp s := by
  unfold firstPlusComp
  split
  · rfl
  · rename_i hs
    have hnosep := splitOnChar_head_no_sep '+' s.data
    rcases h : splitOnChar '+' s.data with _ | ⟨w, ws⟩
    · exact absurd h (splitOnChar_ne_nil '+' s.data)
    · rw [h] at hnosep
      simp only [List.headD_cons] at hnosep ⊢
      split
      · rename_i hw
        have hwnil : w = [] := by
          cases w with
          | nil => rfl
          | cons a as => simp [List.isEmpty] at hw
        subst hwnil
        rfl
      · simp only [splitOnChar_no_sep hnosep, List.headD_cons]

/-- C8: region bucketing depends only on the first `+`-separated component
of each part; with the (possibly inferred) country equal to Canada the
region splits into West Coast Canada / Quebec / East Coast Canada on
BC / QC / anything else; a USA country gives United States; and a country
outside every recognised grouping gives Other. -/
theorem C8_region_bucket (city region country : String) :
    region_bucket city region country =
      region_bucket (firstPlusComp city) (firstPlusComp region)
        (firstPlusComp country) ∧
    (inferredCountry (pyUpper (pyStrip (firstPlusComp region)))
        (pyStrip (firstPlusComp country)) = "Canada" →
      region_bucket city region country =
        (if pyUpper (pyStrip (firstPlusComp region)) = "BC" then
          "West Coast Canada"
         else if pyUpper (pyStrip (firstPlusComp region)) = "QC" then "Quebec"
         else "East Coast Canada")) ∧
    (inferredCountry (pyUpper (pyStrip (firstPlusComp region)))
        (pyStrip (firstPlusComp country)) = "USA" ∨
     inferredCountry (pyUpper (pyStrip (firstPlusComp region)))
        (pyStrip (firstPlusComp country)) = "United States" →
      region_bucket city region country = "United States") ∧
    (inferredCountry (pyUpper (pyStrip (firstPlusComp region)))
        (pyStrip (firstPlusComp country)) ∉
      ["Canada", "USA", "United States", "Ireland", "Hungary", "Australia",
       "New Zealand"] →
     inferredCountry (pyUpper (pyStrip (firstPlusComp region)))
        (pyStrip (firstPlusComp country)) ∉ EU_COUNTRIES →
      region_bucket city region country = "Other") := by
  refine ⟨?_, ?_, ?_, ?_⟩
  · simp only [region_bucket, firstPlusComp_idem]
  · intro h
    simp only [region_bucket, h]
    simp
  · rintro (h | h) <;> simp [region_bucket, h]
  · intro h heu
    simp only [List.mem_cons, not_or] at h
    obtain ⟨h1, h2, h3, h4, h5, h6, h7, -⟩ := h
    simp [region_bucket, h1, h2, h3, h4, h5, h6, h7, heu]

/-- C8 witness: concrete bucketings through the theorem. -/
theorem C8_region_bucket_witness :
    region_bucket "Vancouver" "BC" "Canada" = "West Coast Canada" ∧
    region_bucket "" "QC" "Canada" = "Quebec" ∧
    region_bucket "Toronto" "ON" "" = "East Coast Canada" ∧
    region_bucket "" "" "usa" = "United States" ∧
    region_bucket "" "" "Narnia" = "Other" := by
  refine ⟨?_, ?_, ?_, ?_, ?_⟩
  · exact ((C8_region_bucket "Vancouver" "BC" "Canada").2.1 (by decide)).trans
      (by decide)
  · exact ((C8_region_bucket "" "QC" "Canada").2.1 (by decide)).trans (by decide)
  · exact ((C8_region_bucket "Toronto" "ON" "").2.1 (by decide)).trans (by decide)
  · exact (C8_region_bucket "" "" "usa").2.2.1 (Or.inl (by decide))
  · exact (C8_region_bucket "" "" "Narnia").2.2.2 (by decide) (by decide)

/-- C3 (counterexample): in master compare, two weekly records sharing one
normalized key are resolved by insertion order, not completeness: the second
record is strictly more complete, yet the emitted New-to-Master row carries
the first record's (empty) City. -/
theorem C3_counterexample :
    dupScore [("Production Name", "Alpha")] <
      dupScore [("Production Name", "alpha!"), ("City", "Vancouver"),
        ("Country", "Canada"), ("Description", "d"),
        ("Shooting Dates", "March 2 - April 7, 2027")] ∧
    pyNormKey "Alpha" = pyNormKey "alpha!" ∧
    (masterCompareCore []
        [[("Production Name", "Alpha")],
         [("Production Name", "alpha!"), ("City", "Vancouver"),
          ("Country", "Canada"), ("Description", "d"),
          ("Shooting Dates", "March 2 - April 7, 2027")]]
        ["Alpha"] "" "wk").map (fun r => r.get "City") = [""] := by
  refine ⟨by decide, rfl, rfl⟩

/-- C3 (amended): the helper `_collapse_dupes` does resolve a duplicated
key by the completeness score — the later record replaces the kept one
exactly when its score is strictly higher — but the master-compare map
construction keeps the first-inserted record unconditionally (and
`_collapse_dupes` is called from nowhere in the file). -/
theorem C3_dupes_resolution (r1 r2 : Row)
    (hk : pyNormKey (r1.get "Production Name") =
      pyNormKey (r2.get "Production Name"))
    (hne : pyNormKey (r1.get "Production Name") ≠ "") :
    (collapseDupes [r1, r2]).1 =
      [(pyNormKey (r1.get "Production Name"),
        if dupScore r1 < dupScore r2 then r2 else r1)] ∧
    buildKeyMap [r1, r2] = [(pyNormKey (r1.get "Production Name"), r1)] := by
  constructor
  · simp only [collapseDupes, List.foldl_cons, List.foldl_nil, ← hk,
      List.nil_append]
    rw [if_neg (by simpa using hne), if_neg (by simpa using hne)]
    simp only [List.find?_nil, List.nil_append]
    rw [List.find?_cons_of_pos _ (by simp)]
    simp only [apply_ite Prod.fst]
    split
    · simp [alSet]
    · rfl
  · have h1 : buildKeyMapStep [] r1 =
        [(pyNormKey (r1.get "Production Name"), r1)] := by
      simp [buildKeyMapStep, hne]
    have h2 : buildKeyMapStep [(pyNormKey (r1.get "Production Name"), r1)] r2 =
        [(pyNormKey (r1.get "Production Name"), r1)] := by
      simp only [buildKeyMapStep, ← hk]
      rw [if_neg (by
        rw [List.find?_cons_of_pos _ (by simp)]
        simp)]
    simp [buildKeyMap, h1, h2]

/-- C3 witness: the amended duplicate-resolution contract at concrete
records (the second is more complete, so `_collapse_dupes` keeps it while
the master-compare map keeps the first). -/
theorem C3_dupes_resolution_witness :
    (collapseDupes
        [[("Production Name", "Alpha")],
         [("Production Name", "alpha!"), ("City", "Vancouver")]]).1 =
      [("alpha", [("Production Name", "alpha!"), ("City", "Vancouver")])] ∧
    buildKeyMap
        [[("Production Name", "Alpha")],
         [("Production Name", "alpha!"), ("City", "Vancouver")]] =
      [("alpha", [("Production Name", "Alpha")])] := by
  have h := C3_dupes_resolution [("Production Name", "Alpha")]
    [("Production Name", "alpha!"), ("City", "Vancouver")]
    (by decide) (by decide)
  exact ⟨h.1.trans (by decide), h.2.trans (by decide)⟩

/-- Skipping a record whose title normalizes to the empty key leaves the
key-map construction unchanged. -/
theorem buildKeyMapStep_empty_key {r : Row}
    (hk : pyNormKey (r.get "Production Name") = "") (m : List (String × Row)) :
    buildKeyMapStep m r = m := by
  simp [buildKeyMapStep, hk]

/-- C10: a weekly record whose production name normalizes to the empty key
is silently omitted from master compare: deleting it from the weekly rows
does not change the output at all (so it is neither New-to-Master nor
Updated-vs-Master). -/
theorem C10_empty_key_omitted (masterRows w1 w2 : List Row) (r : Row)
    (baseTitles : List String) (region0 weeklyLabel : String)
    (hk : pyNormKey (r.get "Production Name") = "") :
    masterCompareCore masterRows (w1 ++ r :: w2) baseTitles region0 weeklyLabel
      = masterCompareCore masterRows (w1 ++ w2) baseTitles region0 weeklyLabel := by
  have hmap : ∀ region : String,
      buildKeyMap (weeklyKept (w1 ++ r :: w2) region) =
        buildKeyMap (weeklyKept (w1 ++ w2) region) := by
    intro region
    unfold weeklyKept
    rw [List.filter_append, List.filter_append, List.filter_cons]
    split
    · unfold buildKeyMap
      rw [List.foldl_append, List.foldl_append, List.foldl_cons,
        buildKeyMapStep_empty_key hk]
    · rfl
  unfold masterCompareCore
  simp only [hmap]

/-- C10 witness: a punctuation-only title produces no row and changes
nothing. -/
theorem C10_empty_key_omitted_witness :
    masterCompareCore [] [[("Production Name", "Alpha")],
        [("Production Name", "!!!"), ("City", "Vancouver")]]
      ["Alpha", "!!!"] "" "wk" =
    masterCompareCore [] [[("Production Name", "Alpha")]]
      ["Alpha", "!!!"] "" "wk" :=
  C10_empty_key_omitted [] [[("Production Name", "Alpha")]] []
    [("Production Name", "!!!"), ("City", "Vancouver")]
    ["Alpha", "!!!"] "" "wk" (by decide)

/-! Digit bookkeeping: a string whose `_norm_text` image is an NA token
contains no decimal digit, and the flexible span regex cannot match a
digit-free string.  This justifies the Shooting-Dates part of C6. -/

theorem charLe_toNat {a b : Char} (h : a ≤ b) : a.toNat ≤ b.toNat :=
  BitVec.le_def.mp h

theorem digit_toLower {c : Char} (h : isDigitChar c = true) : c.toLower = c := by
  simp only [isDigitChar, Bool.and_eq_true, decide_eq_true_eq] at h
  have h2 : c.toNat ≤ 57 := charLe_toNat h.2
  unfold Char.toLower
  rw [if_neg]
  omega

theorem digit_not_space {c : Char} (h : isDigitChar c = true) :
    isPySpace c = false := by
  cases hs : isPySpace c
  · rfl
  · exfalso
    simp only [isPySpace, Bool.or_eq_true, decide_eq_true_eq] at hs
    rcases hs with ((((rfl | rfl) | rfl) | rfl) | rfl) | rfl <;>
      exact absurd h (by decide)

theorem mem_dropLeadingWs {c : Char} (hs : isPySpace c = false) :
    ∀ {l : Chars}, c ∈ l → c ∈ dropLeadingWs l := by
  intro l
  induction l with
  | nil => intro h; cases h
  | cons a as ih =>
    intro hm
    rw [dropLeadingWs]
    split
    · rename_i ha
      rcases List.mem_cons.mp hm with rfl | hm2
      · rw [hs] at ha; cases ha
      · exact ih hm2
    · exact hm

theorem mem_pyStripL {c : Char} {l : Chars} (hs : isPySpace c = false)
    (hm : c ∈ l) : c ∈ pyStripL l := by
  unfold pyStripL
  rw [List.mem_reverse]
  exact mem_dropLeadingWs hs (by rw [List.mem_reverse]; exact mem_dropLeadingWs hs hm)

theorem mem_collapseWs {c : Char} (hs : isPySpace c = false) :
    ∀ (l : Chars) (b : Bool), c ∈ l → c ∈ collapseWs l b := by
  intro l
  induction l with
  | nil => intro b h; cases h
  | cons a as ih =>
    intro b hm
    rw [collapseWs]
    rcases List.mem_cons.mp hm with rfl | hm2
    · rw [hs]
      simp only [Bool.false_eq_true, if_false]
      exact List.mem_cons_self ..
    · split
      · split
        · exact ih true hm2
        · exact List.mem_cons_of_mem _ (ih true hm2)
      · exact List.mem_cons_of_mem _ (ih false hm2)

theorem normText_digit_mem {s : String} {c : Char} (hd : isDigitChar c = true)
    (hm : c ∈ s.data) : c ∈ (normText s).data := by
  show c ∈ collapseWs ((pyStripL s.data).map Char.toLower) false
  apply mem_collapseWs (digit_not_space hd)
  have : c ∈ (pyStripL s.data).map Char.toLower := by
    rw [← digit_toLower hd]
    exact List.mem_map_of_mem _ (mem_pyStripL (digit_not_space hd) hm)
  exact this

theorem no_digit_of_mem_token {c : Char} {t : String}
    (hall : ∀ x ∈ t.data, isDigitChar x = false) (hm : c ∈ t.data)
    (hd : isDigitChar c = true) : False := by
  rw [hall c hm] at hd
  cases hd

theorem na_token_no_digit {s : String}
    (h : NA_TOKENS.contains (normText s) = true) :
    ∀ c ∈ s.data, isDigitChar c = false := by
  intro c hc
  cases hd : isDigitChar c
  · rfl
  · exfalso
    have hmem := normText_digit_mem hd hc
    have h6 : normText s = "" ∨ normText s = "n/a" ∨ normText s = "na" ∨
        normText s = "none" ∨ normText s = "-" ∨ normText s = "—" := by
      simpa [NA_TOKENS, List.contains] using h
    rcases h6 with h | h | h | h | h | h <;> rw [h] at hmem <;>
      exact no_digit_of_mem_token (by decide) hmem hd

theorem dropLeadingWs_subset : ∀ l : Chars, dropLeadingWs l ⊆ l := by
  intro l
  induction l with
  | nil => exact fun _ h => h
  | cons a as ih =>
    rw [dropLeadingWs]
    split
    · exact fun x hx => List.mem_cons_of_mem _ (ih hx)
    · exact fun _ h => h

theorem pyStripL_subset (l : Chars) : pyStripL l ⊆ l := by
  unfold pyStripL
  intro x hx
  rw [List.mem_reverse] at hx
  have h1 := dropLeadingWs_subset (dropLeadingWs l).reverse hx
  rw [List.mem_reverse] at h1
  exact dropLeadingWs_subset l h1

theorem tryLens_some {α : Type} {run rest : Chars} {k : Chars → Chars → Option α}
    {v : α} : ∀ {n : Nat}, tryLens run rest k n = some v →
      ∃ m, 1 ≤ m ∧ m ≤ n ∧ k (run.take m) (run.drop m ++ rest) = some v := by
  intro n
  induction n with
  | zero => intro h; rw [tryLens] at h; cases h
  | succ n ih =>
    intro h
    rw [tryLens] at h
    rcases hk : k (run.take (n + 1)) (run.drop (n + 1) ++ rest) with _ | w <;>
      rw [hk] at h
    · obtain ⟨m, h1, h2, h3⟩ := ih h
      exact ⟨m, h1, Nat.le_succ_of_le h2, h3⟩
    · cases h
      exact ⟨n + 1, Nat.succ_le_succ (Nat.zero_le n), Nat.le_refl _, hk⟩

/-- A greedy `\d{1,2}` layer that matched proves its input has a digit. -/
theorem tryLens_digit_layer {α : Type} {E2 : Chars} {k : Chars → Chars → Option α}
    {v : α} (h : tryLens (E2.takeWhile isDigitChar) (E2.dropWhile isDigitChar) k
      (min 2 (E2.takeWhile isDigitChar).length) = some v) :
    ∃ d ∈ E2, isDigitChar d = true := by
  obtain ⟨m, hm1, hm2, -⟩ := tryLens_some h
  rcases htw : E2.takeWhile isDigitChar with _ | ⟨d, ds⟩
  · rw [htw] at hm2
    simp at hm2
    omega
  · refine ⟨d, ?_, List.mem_takeWhile_imp (htw ▸ List.mem_cons_self ..)⟩
    exact (List.takeWhile_sublist _).subset (htw ▸ List.mem_cons_self ..)

/-- Everything a quantifier layer passes on comes from its input. -/
theorem mem_layer_subset {d : Char} {base : Chars} {m : Nat} {p : Char → Bool}
    (h : d ∈ (base.takeWhile p).drop m ++ base.dropWhile p) : d ∈ base := by
  rcases List.mem_append.mp h with h4 | h4
  · exact (List.takeWhile_sublist _).subset ((List.drop_subset _ _) h4)
  · exact (List.dropWhile_sublist _).subset h4

theorem matchSF_digit {cs : Chars} {g : SFGroups} (h : matchSF cs = some g) :
    ∃ c ∈ cs, isDigitChar c = true := by
  unfold matchSF at h
  obtain ⟨m1, -, -, h⟩ := tryLens_some h
  obtain ⟨m2, -, -, h⟩ := tryLens_some h
  obtain ⟨d, hd1, hd2⟩ := tryLens_digit_layer h
  exact ⟨d, mem_layer_subset (mem_layer_subset hd1), hd2⟩

theorem searchSF_digit : ∀ {cs : Chars} {g : SFGroups},
    searchSF cs = some g → ∃ c ∈ cs, isDigitChar c = true := by
  intro cs
  induction cs with
  | nil => intro g h; rw [searchSF] at h; cases h
  | cons c rest ih =>
    intro g h
    rw [searchSF] at h
    rcases hm : matchSF (c :: rest) with _ | g2 <;> rw [hm] at h
    · obtain ⟨d, hd1, hd2⟩ := ih h
      exact ⟨d, List.mem_cons_of_mem _ hd1, hd2⟩
    · exact matchSF_digit hm

theorem parseSpanFlexible_no_digit {s : String}
    (h : ∀ c ∈ s.data, isDigitChar c = false) :
    parseSpanFlexible s = none := by
  unfold parseSpanFlexible
  split
  · rfl
  · rcases hsf : searchSF (((pyStripL s.data).map dashFix).filter
        (fun c => c ≠ ',')) with _ | g
    · simp only [hsf]
    · exfalso
      obtain ⟨d, hd1, hd2⟩ := searchSF_digit hsf
      have hd3 := List.mem_of_mem_filter hd1
      obtain ⟨c0, hc0, hc0e⟩ := List.mem_map.mp hd3
      have hc0s : c0 ∈ s.data := pyStripL_subset _ hc0
      have : isDigitChar c0 = true := by
        unfold dashFix at hc0e
        split at hc0e
        · subst hc0e; exact absurd hd2 (by decide)
        · subst hc0e; exact hd2
      rw [h c0 hc0s] at this
      cases this

theorem equiv_false_of_na_mismatch {a b : String}
    (ha : NA_TOKENS.contains (normText a) = true)
    (hb : NA_TOKENS.contains (normText b) = false) : equiv a b = false := by
  simp only [equiv, ha, hb, Bool.and_false, Bool.false_or]
  cases he : normText a == normText b
  · rfl
  · exfalso
    rw [← eq_of_beq he, ha] at hb
    cases hb

/-- C6 (counterexample): `Start Month` is compared transitively through the
Shooting-Dates spans, so an old-blank/new-filled `Start Month` is *not*
flagged when both spans derive the same month — refuting the claim's
universally quantified converse. -/
theorem C6_counterexample :
    NA_TOKENS.contains (normText (Row.get
      [("Start Month", ""), ("Shooting Dates", "March 2 - April 7, 2027")]
      "Start Month")) = true ∧
    NA_TOKENS.contains (normText (Row.get
      [("Start Month", "March 2027"),
       ("Shooting Dates", "March 2 - April 7, 2027")] "Start Month")) = false ∧
    "Start Month" ∉ changedVsMaster
      [("Start Month", ""), ("Shooting Dates", "March 2 - April 7, 2027")]
      [("Start Month", "March 2027"),
       ("Shooting Dates", "March 2 - April 7, 2027")] := by
  refine ⟨by decide, by decide, by decide⟩

/-- C6 (amended): the parsing-miss exemption holds for every compared field
(new blank/NA while old filled is never flagged); the converse — old
blank/NA and new filled is flagged — holds for the directly compared fields
Shooting Dates, City, Province/State, Country, Director/Producer and
Production Company (Start Month is compared via the derived spans, and
Production Name/Type via normalized forms, so the converse can fail there). -/
theorem C6_blank_asymmetry (master weekly : Row) (f : String) :
    (f ∈ FIELDS_TO_COMPARE_AGAINST_MASTER →
      NA_TOKENS.contains (normText (weekly.get f)) = true →
      NA_TOKENS.contains (normText (master.get f)) = false →
      f ∉ changedVsMaster master weekly) ∧
    (f ∈ ["Shooting Dates", "City", "Province/State", "Country",
          "Director/Producer", "Production Company"] →
      NA_TOKENS.contains (normText (master.get f)) = true →
      NA_TOKENS.contains (normText (weekly.get f)) = false →
      f ∈ changedVsMaster master weekly) := by
  constructor
  · intro _ hnv hov hmem
    rw [changedVsMaster, List.mem_filter] at hmem
    have hdif := hmem.2
    have hnv' : normText (weekly.get f) ∈ NA_TOKENS := by simpa using hnv
    have hov' : normText (master.get f) ∉ NA_TOKENS := by simpa using hov
    simp only [masterFieldDiffers, hnv, hov, Bool.not_false, Bool.and_true,
      if_true] at hdif
    cases hdif
  · intro hf hov hnv
    have heq := equiv_false_of_na_mismatch hov hnv
    simp only [List.mem_cons, List.not_mem_nil, or_false] at hf
    rw [changedVsMaster, List.mem_filter]
    rcases hf with rfl | rfl | rfl | rfl | rfl | rfl
    · have hp : parseSpanFlexible (master.get "Shooting Dates") = none :=
        parseSpanFlexible_no_digit (na_token_no_digit hov)
      refine ⟨by decide, by
        simp [masterFieldDiffers, hnv, equivDates, hp, heq]
        exact Or.inr (by simpa using hov)⟩
    · refine ⟨by decide, by
        simp [masterFieldDiffers, hnv, heq]
        exact Or.inr (by simpa using hov)⟩
    · refine ⟨by decide, by
        simp [masterFieldDiffers, hnv, heq]
        exact Or.inr (by simpa using hov)⟩
    · refine ⟨by decide, by
        simp [masterFieldDiffers, hnv, heq]
        exact Or.inr (by simpa using hov)⟩
    · refine ⟨by decide, by
        simp [masterFieldDiffers, hnv, heq]
        exact Or.inr (by simpa using hov)⟩
    · refine ⟨by decide, by
        simp [masterFieldDiffers, hnv, heq]
        exact Or.inr (by simpa using hov)⟩

/-- C6 witness: the claim's own City example through the amended theorem. -/
theorem C6_blank_asymmetry_witness :
    ("City" ∉ changedVsMaster [("City", "Vancouver, BC")] [("City", "")]) ∧
    ("City" ∈ changedVsMaster [("City", "")] [("City", "Vancouver, BC")]) := by
  constructor
  · exact (C6_blank_asymmetry [("City", "Vancouver, BC")] [("City", "")]
      "City").1 (by decide) (by decide) (by decide)
  · exact (C6_blank_asymmetry [("City", "")] [("City", "Vancouver, BC")]
      "City").2 (by decide) (by decide) (by decide)

/-! Row access lemmas for the Notes characterization (C2). -/

theorem find?_set_same (r : Row) (k v : String) :
    ((r.set k v).find? (fun p => p.1 == k)) = some (k, v) := by
  induction r with
  | nil => simp [Row.set]
  | cons p rest ih =>
    rw [Row.set]
    split
    · rw [List.find?_cons_of_pos _ (by simp)]
    · rename_i hp
      rw [List.find?_cons_of_neg _ (by simpa using hp), ih]

theorem Row.get_set_same (r : Row) (k v : String) : (r.set k v).get k = v := by
  simp [Row.get, find?_set_same]

theorem find?_set_ne (r : Row) {k k' : String} (v : String)
    (h : (k' == k) = false) :
    ((r.set k' v).find? (fun p => p.1 == k)) = r.find? (fun p => p.1 == k) := by
  induction r with
  | nil => simp [Row.set, List.find?, h]
  | cons p rest ih =>
    rw [Row.set]
    split
    · rename_i hp
      have hp1 : p.1 = k' := by simpa using hp
      rw [List.find?_cons_of_neg _ (by simpa using h),
        List.find?_cons_of_neg _ (by simp [hp1]; simpa using h)]
    · cases hpk : (p.1 == k)
      · rw [List.find?_cons_of_neg _ (by simpa using hpk),
          List.find?_cons_of_neg _ (by simpa using hpk), ih]
      · rw [List.find?_cons_of_pos _ (by simpa using hpk),
          List.find?_cons_of_pos _ (by simpa using hpk)]

theorem Row.get_set_ne (r : Row) {k k' : String} (v : String)
    (h : (k' == k) = false) : (r.set k' v).get k = r.get k := by
  simp [Row.get, find?_set_ne r v h]

theorem pyStrip_ne_empty {s : String} {c : Char} (hc : c ∈ s.data)
    (hw : isPySpace c = false) : (pyStrip s == "") = false := by
  have hm := mem_pyStripL hw hc
  cases hb : (pyStrip s == "")
  · rfl
  · exfalso
    have he : pyStrip s = "" := eq_of_beq hb
    have : pyStripL s.data = [] := congrArg String.data he
    rw [this] at hm
    cases hm

theorem foldl_fillNa_get (fields : List String) (out : Row) (k : String)
    (hne : (pyStrip (out.get k) == "") = false) :
    (fields.foldl
      (fun out f => if pyStrip (out.get f) == "" then out.set f "N/A" else out)
      out).get k = out.get k := by
  induction fields generalizing out with
  | nil => rfl
  | cons f fs ih =>
    rw [List.foldl_cons]
    cases hfk : (f == k)
    · split
      · rw [ih (out.set f "N/A") (by rwa [Row.get_set_ne out _ hfk]),
          Row.get_set_ne out _ hfk]
      · exact ih out hne
    · have hf : f = k := by simpa using hfk
      subst hf
      rw [if_neg (by simp [hne])]
      exact ih out hne

/-- `fill_na` does not touch a field whose stripped value is nonempty. -/
theorem fillNa_get (r : Row) (k : String)
    (hne : (pyStrip (r.get k) == "") = false) : (fillNa r).get k = r.get k :=
  foldl_fillNa_get SCHEMA r k hne

theorem startsWithL_append_self : ∀ (l y : Chars), startsWithL l (l ++ y) = true := by
  intro l y
  induction l with
  | nil => rfl
  | cons c cs ih => simp [startsWithL, ih]

theorem mem_data_append_left {c : Char} {a : String} (b : String)
    (h : c ∈ a.data) : c ∈ (a ++ b).data := by
  rw [String.data_append]
  exact List.mem_append_left _ h

theorem setCatNotes_get_notes (r : Row) (c note : String) :
    ((r.set "Category" c).set "Notes" note).get "Notes" = note :=
  Row.get_set_same ..

theorem setCatNotes_get_cat (r : Row) (c note : String) :
    ((r.set "Category" c).set "Notes" note).get "Category" = c := by
  rw [Row.get_set_ne _ _ (by decide), Row.get_set_same]

theorem newRow_fields (nRow : Row) (newLabel : String) :
    (newRow nRow newLabel).get "Category" = "New" ∧
    (newRow nRow newLabel).get "Notes" = "NEW – from " ++ newLabel := by
  constructor
  · rw [newRow, fillNa_get _ _ (by rw [setCatNotes_get_cat]; decide),
      setCatNotes_get_cat]
  · rw [newRow, fillNa_get _ _ ?hne, setCatNotes_get_notes]
    case hne =>
      rw [setCatNotes_get_notes]
      exact pyStrip_ne_empty (c := 'N') (mem_data_append_left _ (by decide))
        (by decide)

theorem removedRow_fields (oRow : Row) (oldLabel : String) :
    (removedRow oRow oldLabel).get "Category" = "Removed" ∧
    (removedRow oRow oldLabel).get "Notes" = "REMOVED – from " ++ oldLabel := by
  constructor
  · rw [removedRow, fillNa_get _ _ (by rw [setCatNotes_get_cat]; decide),
      setCatNotes_get_cat]
  · rw [removedRow, fillNa_get _ _ ?hne, setCatNotes_get_notes]
    case hne =>
      rw [setCatNotes_get_notes]
      exact pyStrip_ne_empty (c := 'R') (mem_data_append_left _ (by decide))
        (by decide)

theorem updatedRow_fields (nRow : Row) (diffs : List String) :
    (updatedRow nRow diffs).get "Category" = "Updated" ∧
    strStarts "UPDATED (" ((updatedRow nRow diffs).get "Notes") = true := by
  constructor
  · rw [updatedRow, fillNa_get _ _ (by rw [setCatNotes_get_cat]; decide),
      setCatNotes_get_cat]
  · rw [updatedRow, fillNa_get _ _ ?hne, setCatNotes_get_notes]
    case hne =>
      rw [setCatNotes_get_notes]
      exact pyStrip_ne_empty (c := 'U')
        (mem_data_append_left _ (mem_data_append_left _ (by decide)))
        (by decide)
    show startsWithL _ _ = true
    simp only [String.data_append]
    rw [List.append_assoc]
    exact startsWithL_append_self _ _

theorem renamedRow_fields (nRow : Row) (oldName : String) :
    (renamedRow nRow oldName).get "Category" = "Updated" ∧
    strStarts "UPDATED (" ((renamedRow nRow oldName).get "Notes") = true := by
  constructor
  · rw [renamedRow, fillNa_get _ _ (by rw [setCatNotes_get_cat]; decide),
      setCatNotes_get_cat]
  · rw [renamedRow, fillNa_get _ _ ?hne, setCatNotes_get_notes]
    case hne =>
      rw [setCatNotes_get_notes]
      refine pyStrip_ne_empty (c := 'U') ?_ (by decide)
      unfold renameNote
      exact mem_data_append_left _ (mem_data_append_left _
        (mem_data_append_left _ (mem_data_append_left _
        (mem_data_append_left _ (mem_data_append_left _
        (mem_data_append_left _ (mem_data_append_left _ (by decide))))))))
    rfl

/-- The shapes a reconciliation Notes string can take (amended C2). -/
def NoteShape (oldLabel newLabel : String) (r : Row) : Prop :=
  (r.get "Category" = "New" ∧ r.get "Notes" = "NEW – from " ++ newLabel) ∨
  (r.get "Category" = "Removed" ∧
    r.get "Notes" = "REMOVED – from " ++ oldLabel) ∨
  (r.get "Category" = "Updated" ∧
    strStarts "UPDATED (" (r.get "Notes") = true)

theorem processNew_shape {sim : String → String → Nat}
    {olds : List (Row × Bool)} {n : Row} {newL : String} {r : Row}
    (h : (processNew sim olds n newL).2 = some r) :
    (r.get "Category" = "New" ∧ r.get "Notes" = "NEW – from " ++ newL) ∨
    (r.get "Category" = "Updated" ∧
      strStarts "UPDATED (" (r.get "Notes") = true) := by
  unfold processNew at h
  dsimp only at h
  split at h
  · split at h
    · split at h
      · exact Option.noConfusion h
      · injection h with h
        subst h
        exact Or.inr (updatedRow_fields ..)
    · exact Option.noConfusion h
  · split at h
    · split at h
      · injection h with h
        subst h
        exact Or.inr (renamedRow_fields ..)
      · exact Option.noConfusion h
    · injection h with h
      subst h
      exact Or.inl (newRow_fields ..)

theorem compareCore_fold_notes (sim : String → String → Nat) (oldL newL : String) :
    ∀ (news : List Row) (st : List (Row × Bool) × List Row),
      (∀ r ∈ st.2, NoteShape oldL newL r) →
      ∀ r ∈ (news.foldl (fun st n =>
          let pr := processNew sim st.1 n newL
          (pr.1, st.2 ++ pr.2.toList)) st).2,
        NoteShape oldL newL r := by
  intro news
  induction news with
  | nil => intro st hst; exact hst
  | cons n ns ih =>
    intro st hst
    rw [List.foldl_cons]
    apply ih
    intro r hr
    rcases List.mem_append.mp hr with h1 | h1
    · exact hst r h1
    · rcases ho : (processNew sim st.1 n newL).2 with _ | r0 <;>
        rw [ho] at h1
      · cases h1
      · rcases List.mem_singleton.mp h1 with rfl
        rcases processNew_shape ho with ⟨h2, h3⟩ | ⟨h2, h3⟩
        · exact Or.inl ⟨h2, h3⟩
        · exact Or.inr (Or.inr ⟨h2, h3⟩)

/-- `to_master_row` builds no `"Notes"` key, so the projected rows of master
compare carry an empty Notes value. -/
theorem toMasterRow_no_notes (row : Row) (issueLink : String) :
    (toMasterRow row issueLink).get "Notes" = "" := rfl

theorem masterCompareEntry_no_notes {mMap : List (String × Row)}
    {baselineIndex : List (String × Nat)} {region weeklyLabel k : String}
    {w r : Row}
    (h : masterCompareEntry mMap baselineIndex region weeklyLabel k w = some r) :
    r.get "Notes" = "" := by
  unfold masterCompareEntry at h
  split at h
  · dsimp only at h
    split at h
    · cases h
    · cases h
      exact toMasterRow_no_notes ..
  · dsimp only at h
    cases h
    exact toMasterRow_no_notes ..

theorem masterCompareCore_fold_notes :
    ∀ (l : List (String × Row)) (mMap : List (String × Row))
      (baselineIndex : List (String × Nat)) (region weeklyLabel : String)
      (acc : List Row), (∀ r ∈ acc, r.get "Notes" = "") →
      ∀ r ∈ l.foldl (fun acc p =>
          match masterCompareEntry mMap baselineIndex region weeklyLabel p.1 p.2
          with
          | some row => acc ++ [row]
          | none => acc) acc,
        r.get "Notes" = "" := by
  intro l
  induction l with
  | nil => intro _ _ _ _ acc hacc; exact hacc
  | cons p ps ih =>
    intro mMap baselineIndex region weeklyLabel acc hacc
    rw [List.foldl_cons]
    apply ih
    intro r hr
    revert hr
    rcases he : masterCompareEntry mMap baselineIndex region weeklyLabel p.1 p.2
        with _ | row
    · exact hacc r
    · intro hr
      rcases List.mem_append.mp hr with h1 | h1
      · exact hacc r h1
      · rcases List.mem_singleton.mp h1 with rfl
        exact masterCompareEntry_no_notes he

/-- C2 (amended): run-to-run Notes strings carry only the category-specific
content — `NEW – from <new label>`, `REMOVED – from <old label>`, or an
`UPDATED (...)` body (changed fields, or the old/new names in the rename
band) — never an ordinal; and the master-compare output rows, being
projections through `to_master_row`, carry no Notes value at all (the
composed `Prod. #NNN` note is dropped by the projection). -/
theorem C2_notes (sim : String → String → Nat) (oldRows newRows : List Row)
    (oldL newL : String) (masterRows weeklyRows : List Row)
    (baseTitles : List String) (region0 wkLabel : String) :
    (∀ r ∈ compareCore sim oldRows newRows oldL newL, NoteShape oldL newL r) ∧
    (∀ r ∈ masterCompareCore masterRows weeklyRows baseTitles region0 wkLabel,
      r.get "Notes" = "") := by
  constructor
  · intro r hr
    unfold compareCore at hr
    rcases List.mem_append.mp hr with h1 | h1
    · exact compareCore_fold_notes sim oldL newL newRows _ (by intro r h; cases h)
        r h1
    · obtain ⟨p, -, rfl⟩ := List.mem_map.mp h1
      exact Or.inr (Or.inl (removedRow_fields ..))
  · intro r hr
    unfold masterCompareCore at hr
    exact masterCompareCore_fold_notes _ _ _ _ _ [] (by intro r h; cases h) r hr

set_option maxRecDepth 8192 in
/-- C2 (counterexample): a New row of run-to-run compare carries the Notes
string `NEW – from B`, which contains no digits at all and no `Prod. #`
marker — it cannot embed the production's 1-based ordinal. -/
theorem C2_counterexample :
    (compareCore (fun _ _ => 0) [] [[("Production Name", "Gamma")]] "A" "B").map
      (fun r => r.get "Notes") = ["NEW – from B"] ∧
    ("NEW – from B").data.all (fun c => !isDigitChar c) = true ∧
    strContains "NEW – from B" "Prod. #" = false := by
  refine ⟨by decide, by decide, by decide⟩

set_option maxRecDepth 8192 in
/-- C2 witness: the amended Notes contract at a concrete run-to-run New row
and at the concrete projected master-compare row. -/
theorem C2_notes_witness :
    NoteShape "A" "B" (newRow [("Production Name", "Gamma")] "B") ∧
    Row.get
      [("Region Bucket", "Other"), ("Category", "New to Master"),
       ("Production Name", "Alpha"), ("Issue Link", "wk"), ("Start Month", ""),
       ("Shooting Dates", ""), ("Actively in Production", ""),
       ("Date Pushed Back?", ""), ("Length (Days)", ""), ("Description", ""),
       ("City", ""), ("Province/State", ""), ("Country", ""), ("Type", ""),
       ("Director/Producer", ""), ("VFX Notes", ""), ("IMDb Link", ""),
       ("Studio Name", ""), ("Production Office", ""),
       ("Production Phone/Email", ""), ("Prod. Co", "")] "Notes" = "" := by
  constructor
  · exact (C2_notes (fun _ _ => 0) [] [[("Production Name", "Gamma")]] "A" "B"
      [] [] [] "" "").1 (newRow [("Production Name", "Gamma")] "B") (by decide)
  · exact (C2_notes (fun _ _ => 0) [] [] "A" "B" []
      [[("Production Name", "Alpha")]] ["Alpha"] "" "wk").2 _ (by decide)



/-! ### C5: the fuzzy comparison thresholds -/

/-- Any positive best score recorded by the scan has recorded a valid index:
indices stored start at the running counter. -/
theorem bestUnmatchedGo_some (sim : String → String → Nat) (t : String) :
    ∀ (l : List (Row × Bool)) (i : Nat) (b : Nat × Option Nat),
    (0 < b.1 → ∃ j, b.2 = some j ∧ j < i) →
    0 < (bestUnmatchedGo sim t l i b).1 →
    ∃ j, (bestUnmatchedGo sim t l i b).2 = some j ∧ j < i + l.length := by
  intro l
  induction l with
  | nil =>
    intro i b hb h
    obtain ⟨j, hj, hlt⟩ := hb h
    exact ⟨j, hj, by simpa using hlt⟩
  | cons o rest ih =>
    intro i b hb h
    rw [bestUnmatchedGo] at h ⊢
    dsimp only at h ⊢
    refine Exists.imp ?step (ih (i + 1) _ ?inv h)
    case step =>
      intro j hj
      exact ⟨hj.1, by have hlt := hj.2; simp only [List.length_cons]; omega⟩
    case inv =>
      intro hpos
      by_cases ho : o.2 = true
      · rw [if_pos ho] at hpos ⊢
        obtain ⟨j, hj, hlt⟩ := hb hpos
        exact ⟨j, hj, by omega⟩
      · rw [if_neg ho] at hpos ⊢
        by_cases hs : b.1 < sim t (normText (o.1.get "Production Name"))
        · rw [if_pos hs] at hpos ⊢
          exact ⟨i, rfl, by omega⟩
        · rw [if_neg hs] at hpos ⊢
          obtain ⟨j, hj, hlt⟩ := hb hpos
          exact ⟨j, hj, by omega⟩

/-- A positive best score over the old rows comes with an in-range index. -/
theorem bestUnmatched_some (sim : String → String → Nat)
    (olds : List (Row × Bool)) (t : String)
    (h : 0 < (bestUnmatched sim olds t).1) :
    ∃ j, (bestUnmatched sim olds t).2 = some j ∧ j < olds.length := by
  have hres := bestUnmatchedGo_some sim t olds 0 (0, none)
    (fun hp => absurd hp (by decide)) h
  simpa [bestUnmatched] using hres

/-- The rename-band Updated row carries exactly the rename note. -/
theorem renamedRow_notes (nRow : Row) (oldName : String) :
    (renamedRow nRow oldName).get "Notes" =
      renameNote oldName (nRow.get "Production Name") := by
  rw [renamedRow, fillNa_get _ _ ?hne, setCatNotes_get_notes]
  case hne =>
    rw [setCatNotes_get_notes]
    refine pyStrip_ne_empty (c := 'U') ?_ (by decide)
    unfold renameNote
    exact mem_data_append_left _ (mem_data_append_left _
      (mem_data_append_left _ (mem_data_append_left _
      (mem_data_append_left _ (mem_data_append_left _
      (mem_data_append_left _ (mem_data_append_left _ (by decide))))))))

/-- The confident-match Updated row carries exactly the field-diff note. -/
theorem updatedRow_notes (nRow : Row) (diffs : List String) :
    (updatedRow nRow diffs).get "Notes" =
      "UPDATED (" ++ joinWithSep ", " diffs ++ ")" := by
  rw [updatedRow, fillNa_get _ _ ?hne, setCatNotes_get_notes]
  case hne =>
    rw [setCatNotes_get_notes]
    exact pyStrip_ne_empty (c := 'U')
      (mem_data_append_left _ (mem_data_append_left _ (by decide)))
      (by decide)


/-- Fixture rows for exercising the comparison thresholds. -/
def exOldRows : List (Row × Bool) := [([("Production Name", "Alpha")], false)]

def exNewRow : Row := [("Production Name", "Beta")]

/-- C5: in run-to-run compare the confident-match band is strictly above 90
(a row is emitted only if some compared field differs), the inclusive band
50-90 always emits an Updated row whose note names the old and the new
title, and a best score strictly below 50 classifies the record as New. -/
theorem C5_thresholds (sim : String → String → Nat) (olds : List (Row × Bool))
    (nRow : Row) (newLabel : String) :
    (90 < (bestUnmatched sim olds (normText (nRow.get "Production Name"))).1 →
      ∃ i o,
        (bestUnmatched sim olds (normText (nRow.get "Production Name"))).2 =
          some i ∧
        olds.get? i = some o ∧
        (changedFields o.1 nRow = [] →
          (processNew sim olds nRow newLabel).2 = none) ∧
        (changedFields o.1 nRow ≠ [] →
          ∃ r, (processNew sim olds nRow newLabel).2 = some r ∧
            r.get "Category" = "Updated" ∧
            r.get "Notes" =
              "UPDATED (" ++ joinWithSep ", " (changedFields o.1 nRow) ++ ")")) ∧
    (50 ≤ (bestUnmatched sim olds (normText (nRow.get "Production Name"))).1 →
      (bestUnmatched sim olds (normText (nRow.get "Production Name"))).1 ≤ 90 →
      ∃ i o,
        (bestUnmatched sim olds (normText (nRow.get "Production Name"))).2 =
          some i ∧
        olds.get? i = some o ∧
        ∃ r, (processNew sim olds nRow newLabel).2 = some r ∧
          r.get "Category" = "Updated" ∧
          r.get "Notes" =
            renameNote (o.1.get "Production Name")
              (nRow.get "Production Name")) ∧
    ((bestUnmatched sim olds (normText (nRow.get "Production Name"))).1 < 50 →
      ∃ r, (processNew sim olds nRow newLabel).2 = some r ∧
        r.get "Category" = "New" ∧
        r.get "Notes" = "NEW – from " ++ newLabel) := by
  refine ⟨?conf, ?band, ?fresh⟩
  case conf =>
    intro h90
    obtain ⟨i, hi, hlt⟩ :=
      bestUnmatched_some sim olds (normText (nRow.get "Production Name"))
        (by omega)
    have hbr : ((olds.get? i).map Prod.fst).getD [] = (olds.get ⟨i, hlt⟩).1 := by
      rw [List.get?_eq_get hlt]; rfl
    refine ⟨i, olds.get ⟨i, hlt⟩, hi, List.get?_eq_get hlt, ?_, ?_⟩
    · intro hcf
      unfold processNew
      dsimp only
      rw [if_pos h90, hi]
      dsimp only
      rw [hbr, hcf]
      rfl
    · intro hcf
      refine ⟨updatedRow nRow (changedFields (olds.get ⟨i, hlt⟩).1 nRow), ?_,
        (updatedRow_fields ..).1, updatedRow_notes ..⟩
      unfold processNew
      dsimp only
      rw [if_pos h90, hi]
      dsimp only
      rw [hbr, if_neg (by simpa using hcf)]
  case band =>
    intro h50 h90
    obtain ⟨i, hi, hlt⟩ :=
      bestUnmatched_some sim olds (normText (nRow.get "Production Name"))
        (by omega)
    have hbr : ((olds.get? i).map Prod.fst).getD [] = (olds.get ⟨i, hlt⟩).1 := by
      rw [List.get?_eq_get hlt]; rfl
    refine ⟨i, olds.get ⟨i, hlt⟩, hi, List.get?_eq_get hlt,
      renamedRow nRow ((olds.get ⟨i, hlt⟩).1.get "Production Name"), ?_,
      (renamedRow_fields ..).1, renamedRow_notes ..⟩
    unfold processNew
    dsimp only
    rw [if_neg (by omega), if_pos h50, hi]
    dsimp only
    rw [hbr]
  case fresh =>
    intro h50
    refine ⟨newRow nRow newLabel, ?_, (newRow_fields ..).1, (newRow_fields ..).2⟩
    unfold processNew
    dsimp only
    rw [if_neg (by omega), if_neg (by omega)]


set_option maxRecDepth 8192 in
/-- C5 witness: the three threshold branches at concrete best scores
91, 90, 50 and 49 over one old row. -/
theorem C5_thresholds_witness :
    (∃ i o,
        (bestUnmatched (fun _ _ => 91) exOldRows
          (normText (exNewRow.get "Production Name"))).2 = some i ∧
        exOldRows.get? i = some o ∧
        (changedFields o.1 exNewRow = [] →
          (processNew (fun _ _ => 91) exOldRows exNewRow "L").2 = none) ∧
        (changedFields o.1 exNewRow ≠ [] →
          ∃ r, (processNew (fun _ _ => 91) exOldRows exNewRow "L").2 =
              some r ∧
            r.get "Category" = "Updated" ∧
            r.get "Notes" =
              "UPDATED (" ++ joinWithSep ", " (changedFields o.1 exNewRow) ++
                ")")) ∧
    (∃ i o,
        (bestUnmatched (fun _ _ => 90) exOldRows
          (normText (exNewRow.get "Production Name"))).2 = some i ∧
        exOldRows.get? i = some o ∧
        ∃ r, (processNew (fun _ _ => 90) exOldRows exNewRow "L").2 = some r ∧
          r.get "Category" = "Updated" ∧
          r.get "Notes" =
            renameNote (o.1.get "Production Name")
              (exNewRow.get "Production Name")) ∧
    (∃ i o,
        (bestUnmatched (fun _ _ => 50) exOldRows
          (normText (exNewRow.get "Production Name"))).2 = some i ∧
        exOldRows.get? i = some o ∧
        ∃ r, (processNew (fun _ _ => 50) exOldRows exNewRow "L").2 = some r ∧
          r.get "Category" = "Updated" ∧
          r.get "Notes" =
            renameNote (o.1.get "Production Name")
              (exNewRow.get "Production Name")) ∧
    (∃ r, (processNew (fun _ _ => 49) exOldRows exNewRow "L").2 = some r ∧
        r.get "Category" = "New" ∧
        r.get "Notes" = "NEW – from " ++ "L") :=
  ⟨(C5_thresholds (fun _ _ => 91) exOldRows exNewRow "L").1 (by decide),
   (C5_thresholds (fun _ _ => 90) exOldRows exNewRow "L").2.1 (by decide)
     (by decide),
   (C5_thresholds (fun _ _ => 50) exOldRows exNewRow "L").2.1 (by decide)
     (by decide),
   (C5_thresholds (fun _ _ => 49) exOldRows exNewRow "L").2.2 (by decide)⟩


/-! ### C7: idempotence of the key normalizer -/

/-- The output alphabet of the key normalizer: lowercase alphanumerics and
the single space separator. -/
def keyChar (c : Char) : Bool := isLowerAlnum c || c = ' '

theorem keyChar_bounds {c : Char} (h : keyChar c = true) :
    c.toNat = 32 ∨ (48 ≤ c.toNat ∧ c.toNat ≤ 57) ∨
      (97 ≤ c.toNat ∧ c.toNat ≤ 122) := by
  simp only [keyChar, isLowerAlnum, Bool.or_eq_true, Bool.and_eq_true,
    decide_eq_true_eq] at h
  rcases h with (⟨h1, h2⟩ | ⟨h1, h2⟩) | h1
  · exact Or.inr (Or.inr ⟨charLe_toNat h1, charLe_toNat h2⟩)
  · exact Or.inr (Or.inl ⟨charLe_toNat h1, charLe_toNat h2⟩)
  · subst h1; exact Or.inl rfl

theorem keyChar_ne {c : Char} (d : Char) (h : keyChar c = true)
    (hd : ¬(d.toNat = 32 ∨ (48 ≤ d.toNat ∧ d.toNat ≤ 57) ∨
      (97 ≤ d.toNat ∧ d.toNat ≤ 122))) : c ≠ d := by
  intro he
  subst he
  exact hd (keyChar_bounds h)

theorem keyChar_toLower {c : Char} (h : keyChar c = true) : c.toLower = c := by
  have hb := keyChar_bounds h
  unfold Char.toLower
  rw [if_neg]
  omega

theorem keyChar_replCurly {c : Char} (h : keyChar c = true) :
    replCurly c = c := by
  unfold replCurly
  rw [if_neg (keyChar_ne _ h (by decide)), if_neg (keyChar_ne _ h (by decide)),
    if_neg (keyChar_ne _ h (by decide)), if_neg (keyChar_ne _ h (by decide)),
    if_neg (keyChar_ne _ h (by decide)), if_neg (keyChar_ne _ h (by decide))]

theorem alnum_not_pySpace {c : Char} (h : isLowerAlnum c = true) :
    isPySpace c = false := by
  cases hs : isPySpace c
  · rfl
  · exfalso
    simp only [isPySpace, Bool.or_eq_true, decide_eq_true_eq] at hs
    simp only [isLowerAlnum, Bool.or_eq_true, Bool.and_eq_true,
      decide_eq_true_eq] at h
    rcases h with ⟨h1, _⟩ | ⟨h1, _⟩ <;> have hb := charLe_toNat h1 <;>
      rcases hs with ((((rfl | rfl) | rfl) | rfl) | rfl) | rfl <;>
      exact absurd hb (by decide)

theorem keyChar_not_space {c : Char} (h1 : keyChar c = true)
    (h2 : isPySpace c = false) : isLowerAlnum c = true := by
  simp only [keyChar, Bool.or_eq_true, decide_eq_true_eq] at h1
  rcases h1 with h1 | rfl
  · exact h1
  · exact absurd h2 (by decide)

theorem matchAkaAt_none {cs : Chars} (h : ∀ c ∈ cs, c ≠ '(') :
    matchAkaAt cs = none := by
  unfold matchAkaAt
  rcases hdp : cs.dropWhile isPySpace with _ | ⟨c, r2⟩
  · rfl
  · have hcm : c ∈ cs :=
      (List.dropWhile_sublist isPySpace).subset
        (by rw [hdp]; exact List.mem_cons_self c r2)
    dsimp only
    rw [if_neg (h c hcm)]

theorem stripAkaGo_id :
    ∀ (cs : Chars) (f : Nat), cs.length ≤ f → (∀ c ∈ cs, c ≠ '(') →
      stripAkaGo f cs = cs := by
  intro cs
  induction cs with
  | nil =>
    intro f _ _
    match f with
    | 0 => rfl
    | _ + 1 => rfl
  | cons a as ih =>
    intro f hf hc
    match f with
    | 0 => exact absurd hf (by simp)
    | g + 1 =>
      rw [show stripAkaGo (g + 1) (a :: as) =
          (match matchAkaAt (a :: as) with
           | some r => stripAkaGo g r
           | none => a :: stripAkaGo g as) from rfl,
        matchAkaAt_none hc]
      dsimp only
      rw [ih g (by simp only [List.length_cons] at hf; omega)
        (fun c h2 => hc c (by simp [h2]))]

theorem map_id_of_mem {f : Char → Char} :
    ∀ {l : Chars}, (∀ c ∈ l, f c = c) → l.map f = l := by
  intro l
  induction l with
  | nil => intro _; rfl
  | cons a as ih =>
    intro h
    simp only [List.map_cons, h a (by simp), ih fun c hc => h c (by simp [hc])]

theorem flatMap_id_of_mem {f : Char → Chars} :
    ∀ {l : Chars}, (∀ c ∈ l, f c = [c]) → l.flatMap f = l := by
  intro l
  induction l with
  | nil => intro _; rfl
  | cons a as ih =>
    intro h
    have e : (a :: as).flatMap f = f a ++ as.flatMap f := rfl
    rw [e, h a (by simp), ih fun c hc => h c (by simp [hc])]
    rfl

theorem mem_subNonAlnum :
    ∀ (l : Chars) (b : Bool) (c : Char), c ∈ subNonAlnum l b →
      keyChar c = true := by
  intro l
  induction l with
  | nil => intro b c h; cases h
  | cons a as ih =>
    intro b c h
    rw [show subNonAlnum (a :: as) b =
        (if isLowerAlnum a = true then a :: subNonAlnum as false
         else if b = true then subNonAlnum as true
         else ' ' :: subNonAlnum as true) from rfl] at h
    by_cases ha : isLowerAlnum a = true
    · rw [if_pos ha] at h
      rcases List.mem_cons.mp h with rfl | h2
      · simp [keyChar, ha]
      · exact ih false c h2
    · rw [if_neg ha] at h
      by_cases hb : b = true
      · rw [if_pos hb] at h
        exact ih true c h
      · rw [if_neg hb] at h
        rcases List.mem_cons.mp h with rfl | h2
        · decide
        · exact ih true c h2

theorem pyWordsGo_good :
    ∀ (l cur : Chars),
      (∀ c ∈ l, keyChar c = true) →
      (∀ c ∈ cur, isLowerAlnum c = true) →
      ∀ w ∈ pyWordsGo l cur, w ≠ [] ∧ ∀ c ∈ w, isLowerAlnum c = true := by
  intro l
  induction l with
  | nil =>
    intro cur _ hc w hw
    rw [show pyWordsGo [] cur = (if cur.isEmpty = true then [] else [cur])
      from rfl] at hw
    by_cases he : cur.isEmpty = true
    · rw [if_pos he] at hw
      cases hw
    · rw [if_neg he] at hw
      rcases List.mem_singleton.mp hw with rfl
      exact ⟨fun hnil => he (by rw [hnil]; rfl), hc⟩
  | cons a as ih =>
    intro cur hl hc w hw
    rw [show pyWordsGo (a :: as) cur =
        (if isPySpace a = true then
          (if cur.isEmpty = true then pyWordsGo as []
           else cur :: pyWordsGo as [])
         else pyWordsGo as (cur ++ [a])) from rfl] at hw
    by_cases hs : isPySpace a = true
    · rw [if_pos hs] at hw
      by_cases he : cur.isEmpty = true
      · rw [if_pos he] at hw
        exact ih [] (fun c hcl => hl c (by simp [hcl])) (by simp) w hw
      · rw [if_neg he] at hw
        rcases List.mem_cons.mp hw with rfl | hw2
        · exact ⟨fun hnil => he (by rw [hnil]; rfl), hc⟩
        · exact ih [] (fun c hcl => hl c (by simp [hcl])) (by simp) w hw2
    · rw [if_neg hs] at hw
      refine ih (cur ++ [a]) (fun c hcl => hl c (by simp [hcl])) ?_ w hw
      intro c hcm
      rcases List.mem_append.mp hcm with h1 | h1
      · exact hc c h1
      · have hca : c = a := List.mem_singleton.mp h1
        rw [hca]
        exact keyChar_not_space (hl a (List.mem_cons_self a as))
          (by simpa using hs)

theorem joinWords_cons (w : Chars) (ws : List Chars) :
    joinWords (w :: ws) =
      w ++ (if ws.isEmpty = true then [] else ' ' :: joinWords ws) := by
  rcases ws with _ | ⟨v, vs⟩
  · simp [joinWords]
  · rfl

theorem mem_joinWords_keyChar :
    ∀ (ws : List Chars), (∀ w ∈ ws, ∀ c ∈ w, isLowerAlnum c = true) →
      ∀ c ∈ joinWords ws, keyChar c = true := by
  intro ws
  induction ws with
  | nil => intro _ c h; cases h
  | cons w vs ih =>
    intro h c hc
    rw [joinWords_cons] at hc
    rcases List.mem_append.mp hc with h1 | h1
    · simp [keyChar, h w (by simp) c h1]
    · by_cases hv : vs.isEmpty = true
      · rw [if_pos hv] at h1
        cases h1
      · rw [if_neg hv] at h1
        rcases List.mem_cons.mp h1 with rfl | h2
        · decide
        · exact ih (fun x hx => h x (by simp [hx])) c h2

theorem dropLeadingWs_of_head :
    ∀ (l : Chars), (∀ c, l.head? = some c → isPySpace c = false) →
      dropLeadingWs l = l := by
  intro l h
  rcases l with _ | ⟨c, cs⟩
  · rfl
  · show (if isPySpace c = true then dropLeadingWs cs else c :: cs) = c :: cs
    rw [h c rfl]
    rfl

theorem joinWords_headq (a : Char) (w2 : Chars) (vs : List Chars) :
    (joinWords ((a :: w2) :: vs)).head? = some a := by
  rw [joinWords_cons]
  rfl

theorem joinWords_reverse :
    ∀ (ws : List Chars), (∀ w ∈ ws, w ≠ [] ∧ ∀ c ∈ w, isLowerAlnum c = true) →
      ws ≠ [] →
      ∃ c t, (joinWords ws).reverse = c :: t ∧ isLowerAlnum c = true := by
  intro ws
  induction ws with
  | nil => intro _ h; exact absurd rfl h
  | cons w vs ih =>
    intro h _
    obtain ⟨hne, hal⟩ := h w (by simp)
    rcases vs with _ | ⟨v, vs2⟩
    · rcases hr : w.reverse with _ | ⟨c, t⟩
      · exact absurd (List.reverse_eq_nil_iff.mp hr) hne
      · refine ⟨c, t, ?_, ?_⟩
        · show w.reverse = c :: t
          exact hr
        · have hcm : c ∈ w.reverse := by rw [hr]; simp
          exact hal c (List.mem_reverse.mp hcm)
    · obtain ⟨c, t, hct, hcal⟩ := ih (fun x hx => h x (by simp [hx])) (by simp)
      refine ⟨c, t ++ ' ' :: w.reverse, ?_, hcal⟩
      show (w ++ ' ' :: joinWords (v :: vs2)).reverse = _
      rw [List.reverse_append, List.reverse_cons, hct]
      simp

theorem pyStripL_join (ws : List Chars)
    (h : ∀ w ∈ ws, w ≠ [] ∧ ∀ c ∈ w, isLowerAlnum c = true) :
    pyStripL (joinWords ws) = joinWords ws := by
  rcases ws with _ | ⟨w, vs⟩
  · rfl
  · obtain ⟨hne, hal⟩ := h w (by simp)
    rcases w with _ | ⟨a, w2⟩
    · exact absurd rfl hne
    · have hhead : dropLeadingWs (joinWords ((a :: w2) :: vs)) =
          joinWords ((a :: w2) :: vs) := by
        apply dropLeadingWs_of_head
        intro c hc
        rw [joinWords_headq] at hc
        injection hc with hc
        subst hc
        exact alnum_not_pySpace (hal _ (by simp))
      have hlast : dropLeadingWs (joinWords ((a :: w2) :: vs)).reverse =
          (joinWords ((a :: w2) :: vs)).reverse := by
        apply dropLeadingWs_of_head
        intro c hc
        obtain ⟨c2, t, hct, hc2⟩ := joinWords_reverse ((a :: w2) :: vs) h
          (by simp)
        rw [hct] at hc
        injection hc with hc
        subst hc
        exact alnum_not_pySpace hc2
      unfold pyStripL
      rw [hhead, hlast, List.reverse_reverse]

theorem subNonAlnum_word :
    ∀ (w rest : Chars) (b : Bool), (∀ c ∈ w, isLowerAlnum c = true) →
      w ≠ [] → subNonAlnum (w ++ rest) b = w ++ subNonAlnum rest false := by
  intro w
  induction w with
  | nil => intro rest b _ hne; exact absurd rfl hne
  | cons a as ih =>
    intro rest b h _
    have ha := h a (by simp)
    have e : subNonAlnum (a :: (as ++ rest)) b =
        (if isLowerAlnum a = true then a :: subNonAlnum (as ++ rest) false
         else if b = true then subNonAlnum (as ++ rest) true
         else ' ' :: subNonAlnum (as ++ rest) true) := rfl
    show subNonAlnum (a :: (as ++ rest)) b = _
    rw [e, if_pos ha]
    by_cases hae : as = []
    · subst hae
      rfl
    · rw [ih rest false (fun c hc => h c (by simp [hc])) hae]
      rfl

theorem subNonAlnum_join :
    ∀ (ws : List Chars), (∀ w ∈ ws, w ≠ [] ∧ ∀ c ∈ w, isLowerAlnum c = true) →
      ∀ b, subNonAlnum (joinWords ws) b = joinWords ws := by
  intro ws
  induction ws with
  | nil => intro _ b; rfl
  | cons w vs ih =>
    intro h b
    obtain ⟨hne, hal⟩ := h w (by simp)
    rcases vs with _ | ⟨v, vs2⟩
    · show subNonAlnum w b = w
      have e := subNonAlnum_word w [] b hal hne
      rw [List.append_nil] at e
      rw [e, show subNonAlnum ([] : Chars) false = [] from rfl,
        List.append_nil]
    · show subNonAlnum (w ++ ' ' :: joinWords (v :: vs2)) b =
        w ++ ' ' :: joinWords (v :: vs2)
      rw [subNonAlnum_word w (' ' :: joinWords (v :: vs2)) b hal hne]
      have e2 : subNonAlnum (' ' :: joinWords (v :: vs2)) false =
          ' ' :: subNonAlnum (joinWords (v :: vs2)) true := rfl
      rw [e2, ih (fun x hx => h x (by simp [hx])) true]

theorem pyWordsGo_append :
    ∀ (w rest cur : Chars), (∀ c ∈ w, isPySpace c = false) →
      pyWordsGo (w ++ rest) cur = pyWordsGo rest (cur ++ w) := by
  intro w
  induction w with
  | nil => intro rest cur _; simp
  | cons a as ih =>
    intro rest cur h
    have e : pyWordsGo (a :: (as ++ rest)) cur =
        (if isPySpace a = true then
          (if cur.isEmpty = true then pyWordsGo (as ++ rest) []
           else cur :: pyWordsGo (as ++ rest) [])
         else pyWordsGo (as ++ rest) (cur ++ [a])) := rfl
    show pyWordsGo (a :: (as ++ rest)) cur = _
    rw [e, if_neg (by simp [h a (by simp)]),
      ih rest (cur ++ [a]) (fun c hc => h c (by simp [hc]))]
    simp

theorem pyWords_join :
    ∀ (ws : List Chars), (∀ w ∈ ws, w ≠ [] ∧ ∀ c ∈ w, isLowerAlnum c = true) →
      pyWords (joinWords ws) = ws := by
  intro ws
  induction ws with
  | nil => intro _; rfl
  | cons w vs ih =>
    intro h
    obtain ⟨hne, hal⟩ := h w (by simp)
    have hnosp : ∀ c ∈ w, isPySpace c = false :=
      fun c hc => alnum_not_pySpace (hal c hc)
    have hwe : w.isEmpty = false := by
      rcases w with _ | _
      · exact absurd rfl hne
      · rfl
    rcases vs with _ | ⟨v, vs2⟩
    · show pyWordsGo (joinWords [w]) [] = [w]
      have e : joinWords [w] = w := rfl
      have e3 : pyWordsGo w [] = pyWordsGo ([] : Chars) w := by
        have e4 := pyWordsGo_append w [] [] hnosp
        simpa using e4
      rw [e, e3, show pyWordsGo ([] : Chars) w =
        (if w.isEmpty = true then [] else [w]) from rfl, hwe]
      rfl
    · show pyWordsGo (w ++ ' ' :: joinWords (v :: vs2)) [] = w :: v :: vs2
      rw [pyWordsGo_append w _ [] hnosp,
        show ([] : Chars) ++ w = w from rfl,
        show pyWordsGo (' ' :: joinWords (v :: vs2)) w =
          (if w.isEmpty = true then pyWordsGo (joinWords (v :: vs2)) []
           else w :: pyWordsGo (joinWords (v :: vs2)) []) from rfl,
        hwe, if_neg Bool.false_ne_true,
        show pyWordsGo (joinWords (v :: vs2)) [] =
          pyWords (joinWords (v :: vs2)) from rfl,
        ih (fun x hx => h x (by simp [hx]))]

theorem normKeyL_shape (env : UEnv) (name : Chars)
    (hne : name.isEmpty = false) :
    normKeyL env name = joinWords (pyWords (subNonAlnum (pyStripL
      ((((env.nfkd (pyStripL (stripAkaGo (name.length + 1) name))).filter
        (fun c => !env.combining c)).map replCurly).flatMap env.lowerMap))
      false)) := by
  rw [normKeyL, if_neg (by simp [hne])]

theorem normKeyL_join (env : UEnv)
    (hnfkd : ∀ l : Chars, (∀ c ∈ l, keyChar c = true) → env.nfkd l = l)
    (hcomb : ∀ c : Char, keyChar c = true → env.combining c = false)
    (hlow : ∀ c : Char, keyChar c = true → env.lowerMap c = [c]) :
    ∀ (ws : List Chars), (∀ w ∈ ws, w ≠ [] ∧ ∀ c ∈ w, isLowerAlnum c = true) →
      normKeyL env (joinWords ws) = joinWords ws := by
  intro ws h
  rcases ws with _ | ⟨w, vs⟩
  · rfl
  · obtain ⟨hne, _⟩ := h w (by simp)
    rcases w with _ | ⟨a, w2⟩
    · exact absurd rfl hne
    · have hJe : (joinWords ((a :: w2) :: vs)).isEmpty = false := by
        rw [joinWords_cons]
        rfl
      have hmem : ∀ c ∈ joinWords ((a :: w2) :: vs), keyChar c = true :=
        mem_joinWords_keyChar _ (fun x hx => (h x hx).2)
      rw [normKeyL_shape env _ hJe,
        stripAkaGo_id _ _ (Nat.le_succ _)
          (fun c hc => keyChar_ne _ (hmem c hc) (by decide)),
        pyStripL_join _ h, hnfkd _ hmem,
        List.filter_eq_self.mpr
          (fun c hc => by
            show (!env.combining c) = true
            rw [hcomb c (hmem c hc)]
            rfl),
        map_id_of_mem (fun c hc => keyChar_replCurly (hmem c hc)),
        flatMap_id_of_mem (fun c hc => hlow c (hmem c hc)),
        pyStripL_join _ h, subNonAlnum_join _ h false, pyWords_join _ h]

/-- C7: the title key normalizer is idempotent.  `_norm_key` is embedded as
`normKeyL` over an explicit unicode environment; the hypotheses record the
facts used about the library functions — NFKD normalization is the identity
on lowercase-alphanumeric-and-space strings, such characters are not
combining marks, and lowercasing fixes them — which hold of `unicodedata`
and `str.lower`.  Under them, normalizing an already-normalized key returns
it unchanged, for every input title. -/
theorem C7_norm_key_idempotent (env : UEnv)
    (hnfkd : ∀ l : Chars, (∀ c ∈ l, keyChar c = true) → env.nfkd l = l)
    (hcomb : ∀ c : Char, keyChar c = true → env.combining c = false)
    (hlow : ∀ c : Char, keyChar c = true → env.lowerMap c = [c])
    (name : Chars) :
    normKeyL env (normKeyL env name) = normKeyL env name := by
  by_cases hne : name.isEmpty = true
  · have h0 : normKeyL env name = [] := by rw [normKeyL, if_pos hne]
    rw [h0]
    rfl
  · have hne2 : name.isEmpty = false := by simpa using hne
    rw [normKeyL_shape env name hne2]
    apply normKeyL_join env hnfkd hcomb hlow
    intro w hw
    exact pyWordsGo_good _ [] (fun c hc => mem_subNonAlnum _ _ c hc)
      (by simp) w hw


/-- C7 witness: idempotence at the ASCII environment on a concrete title
with an alias clause. -/
theorem C7_norm_key_idempotent_witness :
    normKeyL asciiUEnv (normKeyL asciiUEnv ("The Matrix (AKA Meta) 4".data)) =
      normKeyL asciiUEnv ("The Matrix (AKA Meta) 4".data) :=
  C7_norm_key_idempotent asciiUEnv (fun _ _ => rfl) (fun _ _ => rfl)
    (fun c h => by
      show [c.toLower] = [c]
      rw [keyChar_toLower h])
    ("The Matrix (AKA Meta) 4".data)


/-! ### C9: the gazetteer resolver -/

theorem scanBest_cons (g : Gaz) (q : String) (c : GazCity)
    (rest : List GazCity) (bs : Nat) (bn : Option String) :
    scanBest g q (c :: rest) bs bn =
      (if bs < g.sim q (pyLower c.name) then
        (if 98 ≤ g.sim q (pyLower c.name) then
          (g.sim q (pyLower c.name), some (pyLower c.name))
         else scanBest g q rest (g.sim q (pyLower c.name))
           (some (pyLower c.name)))
       else scanBest g q rest bs bn) := rfl

theorem scanBest_le (g : Gaz) (q : String) :
    ∀ (l : List GazCity) (bs : Nat) (bn : Option String),
      bs ≤ (scanBest g q l bs bn).1 := by
  intro l
  induction l with
  | nil => intro bs bn; exact Nat.le_refl bs
  | cons c rest ih =>
    intro bs bn
    rw [scanBest_cons]
    by_cases h1 : bs < g.sim q (pyLower c.name)
    · rw [if_pos h1]
      by_cases h2 : 98 ≤ g.sim q (pyLower c.name)
      · rw [if_pos h2]
        exact Nat.le_of_lt h1
      · rw [if_neg h2]
        exact Nat.le_of_lt (Nat.lt_of_lt_of_le h1 (ih _ _))
    · rw [if_neg h1]
      exact ih bs bn

theorem scanBest_score_src (g : Gaz) (q : String) :
    ∀ (l : List GazCity) (bs : Nat) (bn : Option String),
      (scanBest g q l bs bn).1 = bs ∨
      ∃ c ∈ l, (scanBest g q l bs bn).1 = g.sim q (pyLower c.name) := by
  intro l
  induction l with
  | nil => intro bs bn; exact Or.inl rfl
  | cons c rest ih =>
    intro bs bn
    rw [scanBest_cons]
    by_cases h1 : bs < g.sim q (pyLower c.name)
    · rw [if_pos h1]
      by_cases h2 : 98 ≤ g.sim q (pyLower c.name)
      · rw [if_pos h2]
        exact Or.inr ⟨c, by simp, rfl⟩
      · rw [if_neg h2]
        rcases ih (g.sim q (pyLower c.name)) (some (pyLower c.name)) with
          h | ⟨d, hd, he⟩
        · exact Or.inr ⟨c, by simp, h⟩
        · exact Or.inr ⟨d, by simp [hd], he⟩
    · rw [if_neg h1]
      rcases ih bs bn with h | ⟨d, hd, he⟩
      · exact Or.inl h
      · exact Or.inr ⟨d, by simp [hd], he⟩

theorem scanBest_name_score (g : Gaz) (q : String) :
    ∀ (l : List GazCity) (bs : Nat) (bn : Option String),
      (∀ n, bn = some n → g.sim q n = bs) →
      ∀ n, (scanBest g q l bs bn).2 = some n →
        g.sim q n = (scanBest g q l bs bn).1 := by
  intro l
  induction l with
  | nil => intro bs bn hinv n hn; exact hinv n hn
  | cons c rest ih =>
    intro bs bn hinv n hn
    rw [scanBest_cons] at hn ⊢
    by_cases h1 : bs < g.sim q (pyLower c.name)
    · rw [if_pos h1] at hn ⊢
      by_cases h2 : 98 ≤ g.sim q (pyLower c.name)
      · rw [if_pos h2] at hn ⊢
        have hn2 : some (pyLower c.name) = some n := hn
        injection hn2 with hn2
        subst hn2
        rfl
      · rw [if_neg h2] at hn ⊢
        refine ih _ _ ?_ n hn
        intro m hm
        injection hm with hm
        subst hm
        rfl
    · rw [if_neg h1] at hn ⊢
      exact ih bs bn hinv n hn

theorem scanBest_max (g : Gaz) (q : String) :
    ∀ (l : List GazCity) (bs : Nat) (bn : Option String),
      (∀ c ∈ l, g.sim q (pyLower c.name) < 98) →
      ∀ c ∈ l, g.sim q (pyLower c.name) ≤ (scanBest g q l bs bn).1 := by
  intro l
  induction l with
  | nil => intro bs bn _ c hc; cases hc
  | cons c rest ih =>
    intro bs bn hlt d hd
    rw [scanBest_cons]
    by_cases h1 : bs < g.sim q (pyLower c.name)
    · rw [if_pos h1, if_neg (not_le.mpr (hlt c (by simp)))]
      rcases List.mem_cons.mp hd with rfl | hd2
      · exact scanBest_le g q rest _ _
      · exact ih _ _ (fun x hx => hlt x (by simp [hx])) d hd2
    · rw [if_neg h1]
      rcases List.mem_cons.mp hd with rfl | hd2
      · exact Nat.le_trans (not_lt.mp h1) (scanBest_le g q rest bs bn)
      · exact ih bs bn (fun x hx => hlt x (by simp [hx])) d hd2

theorem mem_insertDescBy {key : GazCity → Nat} {x : GazCity} :
    ∀ {l : List GazCity} {c : GazCity}, c ∈ insertDescBy key x l →
      c = x ∨ c ∈ l := by
  intro l
  induction l with
  | nil =>
    intro c h
    rcases List.mem_singleton.mp h with rfl
    exact Or.inl rfl
  | cons y ys ih =>
    intro c h
    rw [show insertDescBy key x (y :: ys) =
        (if key y ≤ key x then x :: y :: ys else y :: insertDescBy key x ys)
      from rfl] at h
    by_cases hk : key y ≤ key x
    · rw [if_pos hk] at h
      rcases List.mem_cons.mp h with rfl | h2
      · exact Or.inl rfl
      · exact Or.inr h2
    · rw [if_neg hk] at h
      rcases List.mem_cons.mp h with rfl | h2
      · exact Or.inr (by simp)
      · rcases ih h2 with h3 | h3
        · exact Or.inl h3
        · exact Or.inr (by simp [h3])

theorem mem_insertDescBy_of_mem {key : GazCity → Nat} {x : GazCity} :
    ∀ {l : List GazCity} {c : GazCity}, (c = x ∨ c ∈ l) →
      c ∈ insertDescBy key x l := by
  intro l
  induction l with
  | nil =>
    intro c h
    rcases h with rfl | h2
    · simp [insertDescBy]
    · cases h2
  | cons y ys ih =>
    intro c h
    rw [show insertDescBy key x (y :: ys) =
        (if key y ≤ key x then x :: y :: ys else y :: insertDescBy key x ys)
      from rfl]
    by_cases hk : key y ≤ key x
    · rw [if_pos hk]
      rcases h with rfl | h2
      · simp
      · simp [h2]
    · rw [if_neg hk]
      rcases h with rfl | h2
      · simp [ih (Or.inl rfl)]
      · rcases List.mem_cons.mp h2 with rfl | h3
        · simp
        · simp [ih (Or.inr h3)]

theorem mem_sortDescBy {key : GazCity → Nat} :
    ∀ {l : List GazCity} {c : GazCity}, c ∈ sortDescBy key l → c ∈ l := by
  intro l
  induction l with
  | nil => intro c h; cases h
  | cons y ys ih =>
    intro c h
    rw [show sortDescBy key (y :: ys) = insertDescBy key y (sortDescBy key ys)
      from rfl] at h
    rcases mem_insertDescBy h with rfl | h2
    · simp
    · simp [ih h2]

theorem mem_sortDescBy_of_mem {key : GazCity → Nat} :
    ∀ {l : List GazCity} {c : GazCity}, c ∈ l → c ∈ sortDescBy key l := by
  intro l
  induction l with
  | nil => intro c h; cases h
  | cons y ys ih =>
    intro c h
    rw [show sortDescBy key (y :: ys) = insertDescBy key y (sortDescBy key ys)
      from rfl]
    rcases List.mem_cons.mp h with rfl | h2
    · exact mem_insertDescBy_of_mem (Or.inl rfl)
    · exact mem_insertDescBy_of_mem (Or.inr (ih h2))

theorem sortDescBy_head_max {key : GazCity → Nat} :
    ∀ (l : List GazCity) (x : GazCity) (rest : List GazCity),
      sortDescBy key l = x :: rest → ∀ c ∈ l, key c ≤ key x := by
  intro l
  induction l with
  | nil => intro x rest h; cases h
  | cons y ys ih =>
    intro x rest h c hc
    rw [show sortDescBy key (y :: ys) = insertDescBy key y (sortDescBy key ys)
      from rfl] at h
    rcases hS : sortDescBy key ys with _ | ⟨z, zs⟩
    · rw [hS] at h
      have h2 : ([y] : List GazCity) = x :: rest := h
      injection h2 with h2 h3
      subst h2
      rcases List.mem_cons.mp hc with rfl | hc2
      · exact Nat.le_refl _
      · exact absurd (@mem_sortDescBy_of_mem key ys c hc2) (by rw [hS]; simp)
    · rw [hS] at h
      rw [show insertDescBy key y (z :: zs) =
          (if key z ≤ key y then y :: z :: zs
           else z :: insertDescBy key y zs) from rfl] at h
      by_cases hk : key z ≤ key y
      · rw [if_pos hk] at h
        injection h with h2 h3
        subst h2
        rcases List.mem_cons.mp hc with rfl | hc2
        · exact Nat.le_refl _
        · exact Nat.le_trans (ih z zs hS c hc2) hk
      · rw [if_neg hk] at h
        injection h with h2 h3
        subst h2
        rcases List.mem_cons.mp hc with rfl | hc2
        · exact Nat.le_of_lt (not_le.mp hk)
        · exact ih z zs hS c hc2

theorem worldLookupCity_miss (g : Gaz)
    (cityRaw regionHint countryHint : String)
    (hraw : (cityRaw == "") = false)
    (hnoexact : cityCandidates g (pyLower (pyStrip cityRaw)) = [])
    (h90 : ¬ 90 ≤
      (scanBest g (pyLower (pyStrip cityRaw)) g.cities 0 none).1) :
    worldLookupCity g cityRaw regionHint countryHint = ("", "", "") := by
  unfold worldLookupCity
  rw [if_neg (by simp [hraw])]
  dsimp only
  rw [hnoexact, List.isEmpty_nil, if_pos rfl, if_neg h90]
  rfl

theorem worldLookupCity_nohit (g : Gaz)
    (cityRaw regionHint countryHint : String)
    (hraw : (cityRaw == "") = false)
    (hnoexact : cityCandidates g (pyLower (pyStrip cityRaw)) = [])
    (h90 : 90 ≤ (scanBest g (pyLower (pyStrip cityRaw)) g.cities 0 none).1)
    (hn : (scanBest g (pyLower (pyStrip cityRaw)) g.cities 0 none).2 = none) :
    worldLookupCity g cityRaw regionHint countryHint = ("", "", "") := by
  unfold worldLookupCity
  rw [if_neg (by simp [hraw])]
  dsimp only
  rw [hnoexact, List.isEmpty_nil, if_pos rfl, if_pos h90, hn]
  rfl

theorem worldLookupCity_fuzzy (g : Gaz)
    (cityRaw regionHint countryHint : String)
    (hraw : (cityRaw == "") = false)
    (hnoexact : cityCandidates g (pyLower (pyStrip cityRaw)) = [])
    (n : String)
    (h90 : 90 ≤ (scanBest g (pyLower (pyStrip cityRaw)) g.cities 0 none).1)
    (hn : (scanBest g (pyLower (pyStrip cityRaw)) g.cities 0 none).2 =
      some n) :
    worldLookupCity g cityRaw regionHint countryHint =
      (match sortDescBy (candScore g regionHint countryHint)
          (cityCandidates g n) with
       | [] => ("", "", "")
       | hit :: _ =>
         (hit.name, g.admin1 hit.countrycode hit.admin1code,
           g.countryName hit.countrycode)) := by
  unfold worldLookupCity
  rw [if_neg (by simp [hraw])]
  dsimp only
  rw [hnoexact, List.isEmpty_nil, if_pos rfl, if_pos h90, hn]

/-- Fixture gazetteers: `cxGaz` triggers the 98-score early break of the
fuzzy scan, `wGaz` keeps every score below it. -/
def cxGaz : Gaz :=
  { cities := [⟨"Aaa", "XX", "X1"⟩, ⟨"Bbb", "YY", "Y1"⟩],
    countryName := fun _ => "",
    admin1 := fun _ _ => "",
    sim := fun _ n => if n = "aaa" then 98 else 100 }

def wGaz : Gaz :=
  { cities := [⟨"Aaa", "XX", "X1"⟩, ⟨"Bbb", "YY", "Y1"⟩],
    countryName := fun _ => "",
    admin1 := fun _ _ => "",
    sim := fun _ n => if n = "bbb" then 95 else 60 }

/-- C9 (amended): on an exact-match miss, a non-empty result implies some
city scores at least 90; if every score stays below the 98 break threshold
the returned city attains the maximal similarity score; and the sort places
a candidate of maximal hint score (+2 country, +1 region) first.  The
unamended claim fails because the scan breaks at the first score of at
least 98 (see the counterexample). -/
theorem C9_gazetteer (g : Gaz) (cityRaw regionHint countryHint : String)
    (hraw : (cityRaw == "") = false)
    (hnoexact : cityCandidates g (pyLower (pyStrip cityRaw)) = []) :
    (worldLookupCity g cityRaw regionHint countryHint ≠ ("", "", "") →
      ∃ c ∈ g.cities,
        90 ≤ g.sim (pyLower (pyStrip cityRaw)) (pyLower c.name)) ∧
    ((∀ c ∈ g.cities,
        g.sim (pyLower (pyStrip cityRaw)) (pyLower c.name) < 98) →
      worldLookupCity g cityRaw regionHint countryHint ≠ ("", "", "") →
      ∃ hit ∈ g.cities,
        worldLookupCity g cityRaw regionHint countryHint =
          (hit.name, g.admin1 hit.countrycode hit.admin1code,
            g.countryName hit.countrycode) ∧
        ∀ c ∈ g.cities,
          g.sim (pyLower (pyStrip cityRaw)) (pyLower c.name) ≤
            g.sim (pyLower (pyStrip cityRaw)) (pyLower hit.name)) ∧
    (∀ (l : List GazCity) (hit : GazCity) (rest : List GazCity),
      sortDescBy (candScore g regionHint countryHint) l = hit :: rest →
      ∀ c ∈ l, candScore g regionHint countryHint c ≤
        candScore g regionHint countryHint hit) := by
  refine ⟨?ex90, ?attain, ?tiebreak⟩
  case ex90 =>
    intro hres
    by_cases h90 : 90 ≤
        (scanBest g (pyLower (pyStrip cityRaw)) g.cities 0 none).1
    · rcases scanBest_score_src g (pyLower (pyStrip cityRaw)) g.cities 0 none
        with h0 | ⟨c, hc, he⟩
      · rw [h0] at h90
        omega
      · exact ⟨c, hc, by omega⟩
    · exact absurd (worldLookupCity_miss g cityRaw regionHint countryHint
        hraw hnoexact h90) hres
  case attain =>
    intro hlt hres
    by_cases h90 : 90 ≤
        (scanBest g (pyLower (pyStrip cityRaw)) g.cities 0 none).1
    · rcases hB2 : (scanBest g (pyLower (pyStrip cityRaw)) g.cities 0 none).2
        with _ | n
      · exact absurd (worldLookupCity_nohit g cityRaw regionHint countryHint
          hraw hnoexact h90 hB2) hres
      · have hw := worldLookupCity_fuzzy g cityRaw regionHint countryHint
          hraw hnoexact n h90 hB2
        rcases hs : sortDescBy (candScore g regionHint countryHint)
            (cityCandidates g n) with _ | ⟨hit, rest⟩
        · rw [hs] at hw
          exact absurd hw hres
        · rw [hs] at hw
          have hmem : hit ∈ cityCandidates g n :=
            mem_sortDescBy (by rw [hs]; exact List.mem_cons_self hit rest)
          have hfm := List.mem_filter.mp hmem
          have hname : pyLower hit.name = n := eq_of_beq hfm.2
          have hscore : g.sim (pyLower (pyStrip cityRaw)) n =
              (scanBest g (pyLower (pyStrip cityRaw)) g.cities 0 none).1 :=
            scanBest_name_score g _ g.cities 0 none
              (fun m hm => Option.noConfusion hm) n hB2
          refine ⟨hit, hfm.1, hw, ?_⟩
          intro c hc
          have h1 := scanBest_max g (pyLower (pyStrip cityRaw)) g.cities
            0 none hlt c hc
          rw [hname, hscore]
          exact h1
    · exact absurd (worldLookupCity_miss g cityRaw regionHint countryHint
        hraw hnoexact h90) hres
  case tiebreak =>
    intro l hit rest hsort c hc
    exact sortDescBy_head_max l hit rest hsort c hc


/-- C9 (counterexample): the fuzzy scan breaks out as soon as a score of at
least 98 is recorded, so on an exact-match miss the returned city need not
attain the maximal similarity score: `Aaa` scores 98, the scan stops there,
and `Aaa` is returned although `Bbb` scores 100. -/
theorem C9_counterexample :
    cityCandidates cxGaz (pyLower (pyStrip "Zzz")) = [] ∧
    worldLookupCity cxGaz "Zzz" "" "" = ("Aaa", "", "") ∧
    cxGaz.sim (pyLower (pyStrip "Zzz")) (pyLower "Aaa") = 98 ∧
    cxGaz.sim (pyLower (pyStrip "Zzz")) (pyLower "Bbb") = 100 ∧
    (⟨"Bbb", "YY", "Y1"⟩ : GazCity) ∈ cxGaz.cities := by
  refine ⟨by decide, by decide, by decide, by decide, by decide⟩

/-- C9 witness: the amended contract at a concrete two-city table whose
similarity scores stay below the break threshold. -/
theorem C9_gazetteer_witness :
    (worldLookupCity wGaz "Zzz" "" "" ≠ ("", "", "") →
      ∃ c ∈ wGaz.cities,
        90 ≤ wGaz.sim (pyLower (pyStrip "Zzz")) (pyLower c.name)) ∧
    ((∀ c ∈ wGaz.cities,
        wGaz.sim (pyLower (pyStrip "Zzz")) (pyLower c.name) < 98) →
      worldLookupCity wGaz "Zzz" "" "" ≠ ("", "", "") →
      ∃ hit ∈ wGaz.cities,
        worldLookupCity wGaz "Zzz" "" "" =
          (hit.name, wGaz.admin1 hit.countrycode hit.admin1code,
            wGaz.countryName hit.countrycode) ∧
        ∀ c ∈ wGaz.cities,
          wGaz.sim (pyLower (pyStrip "Zzz")) (pyLower c.name) ≤
            wGaz.sim (pyLower (pyStrip "Zzz")) (pyLower hit.name)) ∧
    (∀ (l : List GazCity) (hit : GazCity) (rest : List GazCity),
      sortDescBy (candScore wGaz "" "") l = hit :: rest →
      ∀ c ∈ l, candScore wGaz "" "" c ≤ candScore wGaz "" "" hit) :=
  C9_gazetteer wGaz "Zzz" "" "" (by decide) (by decide)

end PW
